import Mathlib

/-!
Verification development for the device-ping-agent repository: a payment-terminal
integration agent (src/server/server.js), its terminal emulator
(src/mock.terminal/server.v1.js), and the framed-TCP protocol they share.

The JavaScript is shallowly embedded:
byte streams are lists of naturals (byte values), JS strings are Lean Strings,
decimal amount strings with two fractional digits are integer numbers of cents,
ISO timestamps are abstract Nat tick values, and the Math.random draws used by
the emulator's id generator are explicit oracle parameters.  Stateful code is
modelled by explicit state passing.  Log entries, console output, card metadata
(maskedPAN presentation, EMV tags, AVS/CVV) and createdAt/updatedAt timestamps on
transactions are elided: no claim below mentions them.
-/

/-! ### Byte-level framing (src/server/server.js lines 27-54, src/mock.terminal/server.v1.js lines 15, 244-249) -/

/-- Framing byte STX (0x02). -/
def STX : Nat := 2

/-- Framing byte LF (0x0A). -/
def LF : Nat := 10

/-- Framing byte ETX (0x03). -/
def ETX : Nat := 3

/-- server.js line 33-36: frameJson builds STX LF json LF ETX LF around the
serialized payload bytes. -/
def frameJson (j : List Nat) : List Nat :=
  [STX, LF] ++ j ++ [LF, ETX, LF]

/-- Bytes scrubbed by stripFrame's regex (server.js line 37, server.v1.js
line 249): STX, ETX, LF, CR, NUL. -/
def isScrubByte (b : Nat) : Bool :=
  b == 2 || b == 3 || b == 10 || b == 13 || b == 0

/-- ASCII whitespace removed by JS String.prototype.trim (tab, LF, VT, FF, CR,
space); the payloads in scope are ASCII. -/
def isWsByte (b : Nat) : Bool :=
  b == 9 || b == 10 || b == 11 || b == 12 || b == 13 || b == 32

/-- JS .trim(): drop whitespace from both ends of the byte list. -/
def trimBytes (l : List Nat) : List Nat :=
  ((l.dropWhile isWsByte).reverse.dropWhile isWsByte).reverse

/-- server.js line 37: stripFrame removes every STX/ETX/LF/CR/NUL byte and then
trims the result. -/
def stripFrame (raw : List Nat) : List Nat :=
  trimBytes (raw.filter (fun b => !isScrubByte b))

/-- Split a byte list at the first occurrence of byte b: the part strictly
before it and the part strictly after it (Buffer.indexOf plus slicing). -/
def splitAtByte (b : Nat) : List Nat → Option (List Nat × List Nat)
  | [] => none
  | x :: xs =>
    if x = b then some ([], xs)
    else (splitAtByte b xs).map (fun p => (x :: p.1, p.2))

/-- The scan shared by FrameAccumulator.push (server.js lines 44-51),
processFrames (server.js lines 87-91) and the emulator receive loop
(server.v1.js lines 1308-1313): find the earliest STX, then the next ETX after
it; on success return the raw bytes strictly between them together with the
bytes after the ETX.  When the code finds an ETX with no STX before it
(indexOf(ETX, s+1) with s = -1) the s !== -1 guard fails, which this encoding
matches by requiring the STX first. -/
def extractRaw (buf : List Nat) : Option (List Nat × List Nat) :=
  match splitAtByte STX buf with
  | none => none
  | some (_, afterS) =>
    match splitAtByte ETX afterS with
    | none => none
    | some (raw, rest) => some (raw, rest)

/-- Fuel-indexed worker for the while(true) loop of FrameAccumulator.push
(server.js lines 44-52) and of the emulator receive loop (server.v1.js lines
1307-1330): repeatedly extract frames, emitting stripFrame of each raw window;
each step consumes at least the STX and ETX bytes, so fuel equal to the buffer
length always suffices. -/
def drainAux : Nat → List Nat → List (List Nat)
  | 0, _ => []
  | fuel + 1, buf =>
    match extractRaw buf with
    | none => []
    | some (raw, rest) => stripFrame raw :: drainAux fuel rest

/-- All frame payloads the repeated-scan decoders deliver from a buffer. -/
def drainFrames (buf : List Nat) : List (List Nat) :=
  drainAux buf.length buf

/-! ### Protocol Engine inline frame processor (src/server/server.js lines 86-107) -/

/-- server.js line 98: the progress-message allow-list EVT/DSP/PIN/CNF/READY. -/
def progressMessages : List String :=
  ["EVT", "DSP", "PIN", "CNF", "READY"]

/-- How the receive loop disposes of one decoded frame, mirroring the if
chain of server.js lines 97-105. -/
inductive Disposition where
  | ack
  | progress
  | final
  | unhandled
deriving DecidableEq, Repr

/-- server.js lines 97-105: ACK logs and continues; EVT/DSP/PIN/CNF/READY log
and continue; RSP/ERR/MSG resolve the session via done(null, obj); everything
else logs Unhandled and continues. -/
def dispositionOf (m : String) : Disposition :=
  if m == "ACK" then .ack
  else if progressMessages.contains m then .progress
  else if m == "RSP" || m == "ERR" || m == "MSG" then .final
  else .unhandled

/-- The session outcome determined by the sequence of received frame messages:
the first frame whose disposition is final resolves the session (successfully,
with that frame); frames of any other disposition never do. -/
def sessionOutcome : List String → Option String
  | [] => none
  | m :: rest =>
    match dispositionOf m with
    | .final => some m
    | _ => sessionOutcome rest

/-- processFrames (server.js lines 86-107) as a function of the accumulated
buffer: it runs ONCE per data event (no loop), extracting at most one frame.
The buffer advances past the consumed frame; an all-whitespace payload is
dropped (the if (!text) return of line 93); otherwise the trimmed payload text
is emitted.  Unlike stripFrame, processFrames does not scrub embedded framing
bytes: line 92 only does raw.toString('utf8').trim(). -/
def procStep (buf : List Nat) : List Nat × List (List Nat) :=
  match extractRaw buf with
  | none => (buf, [])
  | some (raw, rest) =>
    let text := trimBytes raw
    if text = [] then (rest, []) else (rest, [text])

/-- Feed a sequence of data chunks through processFrames, one call per chunk
(server.js lines 109-114): concatenate the chunk onto the buffer, then run the
single-shot scan. -/
def procRun (chunks : List (List Nat)) : List Nat × List (List Nat) :=
  chunks.foldl
    (fun st c =>
      let out := procStep (st.1 ++ c)
      (out.1, st.2 ++ out.2))
    ([], [])

/-! ### Protocol Engine session (src/server/server.js lines 59-129)

sendCommandTcp owns one socket and three timers (connectGuard, overallTimer,
idleTimer).  Timer expiries, socket events and data chunks are modelled as an
explicit event sequence; a JS timer can only fire while armed.  done (lines
75-82) is the single exit path: it is guarded by the finished flag, clears the
overall and idle timers, destroys the socket, and resolves the promise exactly
once - with and error, log on failure or ok, rsp, log on a final frame.
JSON.parse of a frame text is abstracted by a parse oracle returning the
message field of the envelope, or none for non-JSON text. -/

/-- The resolved value of the sendCommandTcp promise (lines 80-81), log elided. -/
structure SessionResult where
  ok : Bool
  error : Option String
  rsp : Option String
deriving DecidableEq, Repr

/-- The mutable state of one sendCommandTcp session. -/
structure SessState where
  finished : Bool
  socketDestroyed : Bool
  connectGuardArmed : Bool
  overallArmed : Bool
  idleArmed : Bool
  connected : Bool
  buffer : List Nat
  result : Option SessionResult
deriving DecidableEq, Repr

/-- Session state at the top of sendCommandTcp: nothing armed except the logic
that will arm connectGuard at line 117 immediately; we fold that into the
initial state since no event can intervene before it. -/
def initSession : SessState :=
  { finished := false
    socketDestroyed := false
    connectGuardArmed := true
    overallArmed := false
    idleArmed := false
    connected := false
    buffer := []
    result := none }

/-- done(error, rsp) of server.js lines 75-82: no-op when already finished;
otherwise set finished, clear both read timers, destroy the socket and resolve
with ok false, error on an error or ok true, rsp otherwise. -/
def doneSession (st : SessState) (error : Option String) (rsp : Option String) : SessState :=
  if st.finished then st
  else
    { st with
      finished := true
      overallArmed := false
      idleArmed := false
      socketDestroyed := true
      result :=
        some (match error with
          | some e => { ok := false, error := some e, rsp := none }
          | none => { ok := true, error := none, rsp := rsp }) }

/-- The asynchronous events a session can observe. -/
inductive SessEvent where
  | connectGuardFires
  | connectSucceeds
  | dataChunk (c : List Nat)
  | socketError (msg : String)
  | overallFires
  | idleFires

/-- processFrames running inside the session (server.js lines 86-107): extract
at most one frame from the buffer; a final message resolves the session via
done(null, obj), every other disposition (ACK, progress, unhandled, non-JSON,
empty text) just advances the buffer. -/
def sessProcFrames (parse : List Nat → Option String) (st : SessState) : SessState :=
  match extractRaw st.buffer with
  | none => st
  | some (raw, rest) =>
    let st := { st with buffer := rest }
    let text := trimBytes raw
    if text = [] then st
    else
      match parse text with
      | none => st
      | some m =>
        match dispositionOf m with
        | .final => doneSession st none (some m)
        | _ => st

/-- One session event step.  connectGuardFires is the line 117 timer (done
with connect-timeout; note clearTimers never clears this guard, but done's
finished flag makes a late firing a no-op).  connectSucceeds is the connect
callback of lines 119-127 (clears the guard, writes the framed envelope, arms
the overall and idle timers); it cannot occur on a destroyed socket.
dataChunk appends to the buffer, re-arms the idle timer and runs processFrames
(lines 109-114).  socketError is line 115.  overallFires and idleFires are the
armed read timers of lines 71-72. -/
def sessStep (parse : List Nat → Option String) (st : SessState) (ev : SessEvent) : SessState :=
  match ev with
  | .connectGuardFires =>
    if st.connectGuardArmed then doneSession st (some "connect-timeout") none else st
  | .connectSucceeds =>
    if st.finished then st
    else { st with connected := true, connectGuardArmed := false,
                   overallArmed := true, idleArmed := true }
  | .dataChunk c =>
    if st.finished then st
    else sessProcFrames parse { st with buffer := st.buffer ++ c, idleArmed := true }
  | .socketError msg => doneSession st (some msg) none
  | .overallFires =>
    if st.overallArmed then doneSession st (some "read-timeout") none else st
  | .idleFires =>
    if st.idleArmed then doneSession st (some "idle-timeout") none else st

/-- A whole session: fold the event sequence from the initial state. -/
def sessRun (parse : List Nat → Option String) (evs : List SessEvent) : SessState :=
  evs.foldl (sessStep parse) initSession

/-! ### HTTP Gateway, POST /sale (src/server/server.js lines 185-256)

Amount values are modelled as exact rationals; as2dp (line 31,
parseFloat(v).toFixed(2)) is rounding to two decimal places, half away from
zero.  Express request bodies are records of optional fields; a JS property
access on undefined throws TypeError, which the catch of line 253 turns into
HTTP 500 - the model returns serverError at exactly the accesses that throw. -/

/-- as2dp (server.js line 31): normalize an amount to two fractional digits. -/
def as2dp (v : Rat) : Rat :=
  (if v < 0 then -((-v * 100 + 1 / 2).floor) else (v * 100 + 1 / 2).floor) / 100

/-- The transaction object of a /sale body. -/
structure SaleBodyTxn where
  baseAmount : Option Rat
  tipAmount : Option Rat
  taxAmount : Option Rat
  cashBackAmount : Option Rat
  taxIndicator : Option String
  allowDuplicate : Option Nat
  allowPartialAuth : Option Nat
deriving DecidableEq, Repr

/-- The nested body.sale object: the renderer's shape. -/
structure SaleNested where
  params : Option (List (String × String))
  transaction : Option SaleBodyTxn
deriving DecidableEq, Repr

/-- A POST /sale request body: either top-level fields, or the same fields
nested under sale, or both. -/
structure SaleBody where
  sale : Option SaleNested
  params : Option (List (String × String))
  transaction : Option SaleBodyTxn
deriving DecidableEq, Repr

/-- The outcome of the /sale route: HTTP 200 with the envelope's
params and transaction, HTTP 400 with a message (line 203), or HTTP 500 from
the catch-all of line 254. -/
inductive SaleRouteOut where
  | ok (params : List (String × String)) (transaction : SaleBodyTxn)
  | badRequest (message : String)
  | serverError
deriving DecidableEq, Repr

/-- The transaction normalization of server.js lines 205-217. -/
def normalizeSaleTxn (t : SaleBodyTxn) : SaleBodyTxn :=
  { t with
    baseAmount := t.baseAmount.map as2dp
    tipAmount := t.tipAmount.map as2dp
    taxAmount := t.taxAmount.map as2dp
    cashBackAmount := t.cashBackAmount.map as2dp
    taxIndicator := some (t.taxIndicator.getD "0")
    allowDuplicate := some (t.allowDuplicate.getD 0)
    allowPartialAuth := t.allowPartialAuth.map (fun n => if n ≠ 0 then 1 else 0) }

/-- The /sale handler of server.js lines 185-256.  Line 198 merges params with
nested overriding top-level (modelled by preferring the nested list), but line
199 reads req.body.sale.transaction unconditionally: when body.sale is absent
that property access throws and the catch returns HTTP 500; likewise when
body.sale.transaction is absent, line 202 reads transaction.baseAmount on
undefined and throws.  Only a present transaction whose baseAmount is null
reaches the HTTP 400 of line 203. -/
def handleSaleRoute (body : SaleBody) : SaleRouteOut :=
  let mergedParams :=
    match body.sale with
    | some n => (n.params.getD []) ++ (body.params.getD [])
    | none => body.params.getD []
  match body.sale with
  | none => .serverError
  | some nested =>
    match nested.transaction with
    | none => .serverError
    | some t =>
      if t.baseAmount.isNone then .badRequest "baseAmount is required"
      else .ok mergedParams (normalizeSaleTxn t)

/-! ### Terminal State Core (src/mock.terminal/server.v1.js lines 17-238)

Amounts are integer cents (the emulator persists two-fractional-digit decimal
strings; parseFloat/toFixed round-trips them exactly).  A transaction's
amounts object holds only the fields the creating handler wrote, hence
optional fields with the JS undefined-or-zero guard x || 0 modelled by getD 0.
Fields never consulted by any claim (approvalCode, maskedPAN, cardType,
metadata, statistics, timestamps on transactions) are elided. -/

/-- server.v1.js lines 30-40: TXN_TYPES. -/
inductive TxnType where
  | Sale
  | PreAuth
  | Capture
  | Void
  | Refund
  | TipAdjust
  | Reversal
  | BatchClose
  | ForceSale
deriving DecidableEq, Repr

/-- server.v1.js lines 18-27: TXN_STATUS. -/
inductive TxnStatus where
  | PENDING
  | APPROVED
  | DECLINED
  | VOIDED
  | SETTLED
  | REFUNDED
  | PARTIAL_VOIDED
  | TIP_ADJUSTED
deriving DecidableEq, Repr

/-- A transaction's amounts object; cents.  Handlers write different subsets
of fields (handleSale lines 404-411, handleRefund lines 826-831, handlePreAuth
lines 931-934), so each field is optional. -/
structure TxnAmounts where
  baseAmount : Option Int
  tipAmount : Option Int
  taxAmount : Option Int
  cashbackAmount : Option Int
  totalAmount : Option Int
  authorizedAmount : Option Int
deriving DecidableEq, Repr

/-- A stored transaction (the fields of the records built in handleSale,
handleVoid, handleRefund, handlePreAuth plus the id and batchId assigned by
TransactionStore.addTransaction). -/
structure Txn where
  id : String
  tranNo : String
  referenceNumber : String
  responseId : Nat
  type : TxnType
  status : TxnStatus
  amounts : TxnAmounts
  originalTransaction : Option String
  partialApproval : Bool
  declineReason : Option String
  batchId : String
deriving DecidableEq, Repr

/-- A batch (loadData lines 76-81, openNewBatch lines 115-124, closeBatch
lines 174-180).  settlementCount and totalAmount exist only on closed
batches. -/
structure Batch where
  id : String
  openTime : Nat
  closeTime : Option Nat
  isOpen : Bool
  transactions : List String
  settlementCount : Option Nat
  totalAmount : Option Int
deriving DecidableEq, Repr

/-- The id counters (loadData lines 71-75). -/
structure Counters where
  nextTranNo : Nat
  nextBatchNo : Nat
  nextRefNo : Nat
deriving DecidableEq, Repr

/-- The persisted document: TransactionStore.data (statistics elided). -/
structure Store where
  transactions : List Txn
  batches : List Batch
  counters : Counters
  currentBatch : Batch
deriving DecidableEq, Repr

/-- JS String.prototype.padStart(width, '0') on an ASCII string. -/
def padStartZeros (width : Nat) (s : String) : String :=
  ⟨List.replicate (width - s.data.length) '0' ++ s.data⟩

/-- A JSON scalar used as a transaction identifier in a request: either a
string or a number.  JS strict equality between a string and a number is
always false; String(v) of a number is its decimal representation. -/
inductive JsVal where
  | str (s : String)
  | num (n : Nat)
deriving DecidableEq, Repr

/-- JS String(v). -/
def jsToString : JsVal → String
  | .str s => s
  | .num n => Nat.repr n

/-- JS strict === between a JSON scalar and a string field. -/
def jsEqStr (v : JsVal) (s : String) : Bool :=
  match v with
  | .str t => t == s
  | .num _ => false

/-- JS strict === between a JSON scalar and a numeric field. -/
def jsEqNum (v : JsVal) (n : Nat) : Bool :=
  match v with
  | .str _ => false
  | .num m => m == n

/-- JS truthiness of a JSON scalar (empty string and 0 are falsy). -/
def jsTruthy : JsVal → Bool
  | .str s => s ≠ ""
  | .num n => n ≠ 0

/-- JS a || b over optional scalars (used for ref || tranNo in handleVoid
line 522, handleTipAdjust line 696). -/
def jsOr (a b : Option JsVal) : Option JsVal :=
  match a with
  | some v => if jsTruthy v then some v else b
  | none => b

/-- The ids handed out by TransactionStore.generateIds (lines 230-237).
approvalCode (pure Math.random, never used for lookup) is elided. -/
structure GenIds where
  tranNo : String
  referenceNumber : String
  responseId : Nat
deriving DecidableEq, Repr

/-- generateIds (server.v1.js lines 230-237).  Object-literal evaluation
order: tranNo reads nextTranNo then post-increments it; referenceNumber reads
nextRefNo then post-increments it; responseId then reads the ALREADY
INCREMENTED nextRefNo and adds Math.floor(Math.random() * 1000), modelled by
the oracle draw rand (0 <= rand < 1000). -/
def generateIds (c : Counters) (rand : Nat) : GenIds × Counters :=
  ({ tranNo := padStartZeros 4 (Nat.repr c.nextTranNo)
     referenceNumber := Nat.repr c.nextRefNo
     responseId := c.nextRefNo + 1 + rand },
   { c with nextTranNo := c.nextTranNo + 1, nextRefNo := c.nextRefNo + 1 })

/-- addTransaction (lines 126-139): assign id TXN + zero-padded running count,
bind to the open batch, push onto transactions and onto the current batch's id
list. -/
def addTransaction (s : Store) (txn : Txn) : Store :=
  let txn := { txn with
    id := "TXN" ++ padStartZeros 8 (Nat.repr (s.transactions.length + 1))
    batchId := s.currentBatch.id }
  { s with
    transactions := s.transactions ++ [txn]
    currentBatch := { s.currentBatch with
      transactions := s.currentBatch.transactions ++ [txn.id] } }

/-- The lookup predicate of updateTransaction (lines 142-143):
t.id === id || t.tranNo === id || t.referenceNumber === id, all three strict
against the same value; every caller passes a transaction's id string.
responseId is NOT consulted here. -/
def updMatches (idf : String) (t : Txn) : Bool :=
  t.id == idf || t.tranNo == idf || t.referenceNumber == idf

/-- Replace the first element satisfying p by f of it (Array.prototype.find
followed by in-place mutation). -/
def updFirst (p : Txn → Bool) (f : Txn → Txn) : List Txn → List Txn
  | [] => []
  | t :: ts => if p t then f t :: ts else t :: updFirst p f ts

/-- updateTransaction (lines 141-152): find the first transaction whose id,
tranNo or referenceNumber strictly equals the identifier and apply the patch
to it; no match leaves the store unchanged (the JS returns null). -/
def updateTransaction (s : Store) (idf : String) (f : Txn → Txn) : Store :=
  { s with transactions := updFirst (updMatches idf) f s.transactions }

/-- The lookup predicate of findTransaction (lines 154-160):
t.id === identifier || t.tranNo === String(identifier) ||
t.referenceNumber === String(identifier) || t.responseId === identifier. -/
def findMatches (identifier : JsVal) (t : Txn) : Bool :=
  jsEqStr identifier t.id || t.tranNo == jsToString identifier ||
  t.referenceNumber == jsToString identifier || jsEqNum identifier t.responseId

/-- findTransaction (lines 154-160): Array.prototype.find returns the FIRST
transaction in store order satisfying the disjunction of the four field
comparisons. -/
def findTransaction (s : Store) (identifier : JsVal) : Option Txn :=
  s.transactions.find? (findMatches identifier)

/-- findTransaction applied to ref || tranNo, which may be absent entirely
(JS then looks up undefined and finds nothing, since every stored id, tranNo
and referenceNumber is a string and String(undefined) is "undefined", which no
generated tranNo or referenceNumber equals; callers never store such ids). -/
def findTransactionO (s : Store) (o : Option JsVal) : Option Txn :=
  match o with
  | none => none
  | some v => findTransaction s v

/-- getUnsettledTransactions (lines 162-166): the transactions of the open
batch whose status is APPROVED or TIP_ADJUSTED. -/
def getUnsettledTransactions (s : Store) : List Txn :=
  s.transactions.filter (fun t =>
    (t.status == .APPROVED || t.status == .TIP_ADJUSTED) &&
    t.batchId == s.currentBatch.id)

/-- openNewBatch (lines 115-124): id B + zero-padded batch counter
(post-incremented), fresh open batch. -/
def openNewBatch (s : Store) (now : Nat) : Store :=
  let batchId := "B" ++ padStartZeros 4 (Nat.repr s.counters.nextBatchNo)
  { s with
    counters := { s.counters with nextBatchNo := s.counters.nextBatchNo + 1 }
    currentBatch :=
      { id := batchId
        openTime := now
        closeTime := none
        isOpen := true
        transactions := []
        settlementCount := none
        totalAmount := none } }

/-- closeBatch (lines 168-187): snapshot the unsettled transactions, flip each
to SETTLED through updateTransaction keyed on its id, record the closed batch
(closeTime, isOpen false, settlementCount, totalAmount summed with the
|| 0 guard; the status updates do not touch amounts, so summing over the
snapshot equals the JS sum over the mutated references), push it onto batches
and open a new batch.  Returns the new store and the closed batch record. -/
def closeBatch (s : Store) (now : Nat) : Store × Batch :=
  let unsettled := getUnsettledTransactions s
  let s1 := unsettled.foldl
    (fun acc t => updateTransaction acc t.id (fun u => { u with status := .SETTLED })) s
  let closedBatch := { s1.currentBatch with
    closeTime := some now
    isOpen := false
    settlementCount := some unsettled.length
    totalAmount := some (unsettled.foldl (fun a t => a + t.amounts.totalAmount.getD 0) 0) }
  let s2 := { s1 with batches := s1.batches ++ [closedBatch] }
  (openNewBatch s2 now, closedBatch)

/-- The empty document created by loadData when no data file exists (lines
68-89) followed by initializeCounters opening the first batch (lines 101-103,
115-124): this is the store the emulator starts from.  loadData's
currentBatch has a null id; initializeCounters immediately replaces it. -/
def initialStore (now : Nat) : Store :=
  openNewBatch
    { transactions := []
      batches := []
      counters := { nextTranNo := 1, nextBatchNo := 1, nextRefNo := 200000000000 }
      currentBatch :=
        { id := ""
          openTime := 0
          closeTime := none
          isOpen := true
          transactions := []
          settlementCount := none
          totalAmount := none } }
    now

/-! ### Emulator command handlers (src/mock.terminal/server.v1.js lines 345-1007)

Each handler is modelled as its effect on the store plus the decision it
reports.  The resolved card PAN (params.cardPAN || params.pan || data.pan ||
an acquisition-dependent literal default, line 368) enters as a plain string
field; the ACK frame, artificial delays and response envelope formatting carry
no state. -/

/-- JS String.prototype.endsWith on ASCII strings: suffix test on the
character lists. -/
def jsEndsWith (s suff : String) : Bool :=
  List.isSuffixOf suff.data s.data

/-- The transaction fields of a Sale request that handleSale consults (lines
355-358): all optional decimal strings, with the x || y || "0.00" falsy
chaining modelled by option fallback. -/
structure SaleReq where
  baseAmount : Option Int
  amount : Option Int
  tipAmount : Option Int
  taxAmount : Option Int
  cashbackAmount : Option Int
  pan : String
deriving DecidableEq, Repr

/-- The approval decision state computed by handleSale. -/
structure SaleDecision where
  status : TxnStatus
  partialApproval : Bool
  authorized : Int
  declineReason : Option String
deriving DecidableEq, Repr

/-- The business-rules chain of handleSale lines 374-389, an if / else-if
cascade evaluated top to bottom: the partial-approval window is tested FIRST,
so a total in [155.00, 200.00) is partially approved even when the PAN ends in
0001; the amount cap is tested before the PAN rule.  authorized starts as the
total and is only overwritten in the partial branch. -/
def saleDecision (total : Int) (pan : String) : SaleDecision :=
  if 15500 ≤ total ∧ total < 20000 then
    { status := .APPROVED, partialApproval := true, authorized := 10000,
      declineReason := none }
  else if 50000 ≤ total then
    { status := .DECLINED, partialApproval := false, authorized := total,
      declineReason := some "AMOUNT TOO HIGH" }
  else if jsEndsWith pan "0001" then
    { status := .DECLINED, partialApproval := false, authorized := total,
      declineReason := some "CARD DECLINED" }
  else
    { status := .APPROVED, partialApproval := false, authorized := total,
      declineReason := none }

/-- The final response handleSale sends (error lines 361-366, declined lines
425-431, success lines 433-502; balanceDue only on partial approvals, line
498: total minus authorized). -/
inductive SaleOutcome where
  | amtError
  | declinedRsp (reason : String)
  | approvedRsp (partialApproval : Bool) (authorizedAmount : Int) (balanceDue : Option Int)
deriving DecidableEq, Repr

/-- handleSale (lines 345-511): compute the amounts (with the falsy-chained
defaults of lines 355-358), reject AMT001 on a non-positive base amount
WITHOUT storing anything, otherwise run the decision chain, allocate ids,
store the transaction (declined sales are stored too: addTransaction at line
423 precedes the declined check at line 425), and report the response. -/
def handleSale (s : Store) (req : SaleReq) (rand : Nat) : Store × SaleOutcome :=
  let baseAmount : Int := match req.baseAmount with | some v => v | none => req.amount.getD 0
  let tip := req.tipAmount.getD 0
  let tax := req.taxAmount.getD 0
  let cashback := req.cashbackAmount.getD 0
  let total := baseAmount + tip + tax + cashback
  if baseAmount ≤ 0 then (s, .amtError)
  else
    let d := saleDecision total req.pan
    let idc := generateIds s.counters rand
    let txn : Txn :=
      { id := ""
        batchId := ""
        tranNo := idc.1.tranNo
        referenceNumber := idc.1.referenceNumber
        responseId := idc.1.responseId
        type := .Sale
        status := d.status
        amounts :=
          { baseAmount := some baseAmount
            tipAmount := some tip
            taxAmount := some tax
            cashbackAmount := some cashback
            totalAmount := some total
            authorizedAmount := some d.authorized }
        originalTransaction := none
        partialApproval := d.partialApproval
        declineReason := d.declineReason }
    let s1 := addTransaction { s with counters := idc.2 } txn
    if d.status = .DECLINED then (s1, .declinedRsp (d.declineReason.getD ""))
    else
      (s1, .approvedRsp d.partialApproval d.authorized
        (if d.partialApproval then some (total - d.authorized) else none))

/-- The final response of handleVoid. -/
inductive VoidOutcome where
  | ref001
  | void001
  | void002
  | void003
  | voidOk (originalId : String)
deriving DecidableEq, Repr

/-- handleVoid (lines 514-611): look the target up by ref || tranNo; REF001
when not found; VOID001 when already VOIDED; VOID002 when SETTLED; VOID003
when the status is not APPROVED or TIP_ADJUSTED; otherwise flip the target to
VOIDED via updateTransaction keyed on its id and store a new Void transaction
whose originalTransaction is the target's id and whose amounts are copied from
the target. -/
def handleVoid (s : Store) (ref tranNo : Option JsVal) (rand : Nat) : Store × VoidOutcome :=
  match findTransactionO s (jsOr ref tranNo) with
  | none => (s, .ref001)
  | some originalTxn =>
    if originalTxn.status = .VOIDED then (s, .void001)
    else if originalTxn.status = .SETTLED then (s, .void002)
    else if ¬(originalTxn.status = .APPROVED ∨ originalTxn.status = .TIP_ADJUSTED) then
      (s, .void003)
    else
      let s1 := updateTransaction s originalTxn.id (fun u => { u with status := .VOIDED })
      let idc := generateIds s1.counters rand
      let voidTxn : Txn :=
        { id := ""
          batchId := ""
          tranNo := idc.1.tranNo
          referenceNumber := idc.1.referenceNumber
          responseId := idc.1.responseId
          type := .Void
          status := .APPROVED
          amounts := originalTxn.amounts
          originalTransaction := some originalTxn.id
          partialApproval := false
          declineReason := none }
      (addTransaction { s1 with counters := idc.2 } voidTxn, .voidOk originalTxn.id)

/-- The final response of handleTipAdjust. -/
inductive TipOutcome where
  | tran009
  | tip001
  | tipOk
deriving DecidableEq, Repr

/-- handleTipAdjust (lines 688-764): look the target up by ref || tranNo;
TRAN009 when not found, TIP001 unless the status is APPROVED or TIP_ADJUSTED;
otherwise patch via updateTransaction.  The patch object of lines 718-722 uses
the literal property names amounts.tipAmount and amounts.totalAmount, which
Object.assign writes as NEW top-level properties of the transaction - the
nested amounts object is untouched, so only the status change is observable.
generateIds is still called (line 724); its ids are only echoed in the
response. -/
def handleTipAdjust (s : Store) (ref tranNo : Option JsVal) (rand : Nat) :
    Store × TipOutcome :=
  match findTransactionO s (jsOr ref tranNo) with
  | none => (s, .tran009)
  | some originalTxn =>
    if ¬(originalTxn.status = .APPROVED ∨ originalTxn.status = .TIP_ADJUSTED) then
      (s, .tip001)
    else
      let s1 := updateTransaction s originalTxn.id
        (fun u => { u with status := .TIP_ADJUSTED })
      let idc := generateIds s1.counters rand
      ({ s1 with counters := idc.2 }, .tipOk)

/-- The final response of handleRefund. -/
inductive RefundOutcome where
  | amt002
  | ref002
  | amt003
  | refundOk
deriving DecidableEq, Repr

/-- handleRefund (lines 767-895): refund amount from totalAmount || amount ||
"0.00"; AMT002 when non-positive, nothing stored.  A truthy referenceNumber
makes it a referenced refund: REF002 when the original is not found, AMT003
when the refund exceeds the original's totalAmount (line 799 parses the
original's totalAmount without a guard: an absent field gives NaN and the
comparison is false, modelled by the none branch).  On success a Refund
transaction with status APPROVED is stored, originalTransaction pointing at
the original when referenced. -/
def handleRefund (s : Store) (totalAmount amount : Option Int) (ref : Option JsVal)
    (rand : Nat) : Store × RefundOutcome :=
  let refundAmount : Int := match totalAmount with | some v => v | none => amount.getD 0
  if refundAmount ≤ 0 then (s, .amt002)
  else
    let refOpt : Option JsVal :=
      match ref with
      | some v => if jsTruthy v then some v else none
      | none => none
    let mkRefund : Option Txn → Store → Store := fun orig st =>
      let idc := generateIds st.counters rand
      let refundTxn : Txn :=
        { id := ""
          batchId := ""
          tranNo := idc.1.tranNo
          referenceNumber := idc.1.referenceNumber
          responseId := idc.1.responseId
          type := .Refund
          status := .APPROVED
          amounts :=
            { baseAmount := some refundAmount
              tipAmount := some 0
              taxAmount := some 0
              cashbackAmount := none
              totalAmount := some refundAmount
              authorizedAmount := none }
          originalTransaction := orig.map (·.id)
          partialApproval := false
          declineReason := none }
      addTransaction { st with counters := idc.2 } refundTxn
    match refOpt with
    | none => (mkRefund none s, .refundOk)
    | some r =>
      match findTransaction s r with
      | none => (s, .ref002)
      | some originalTxn =>
        match originalTxn.amounts.totalAmount with
        | some orig =>
          if refundAmount > orig then (s, .amt003)
          else (mkRefund (some originalTxn) s, .refundOk)
        | none => (mkRefund (some originalTxn) s, .refundOk)

/-- handlePreAuth (lines 898-1007): authorization amount from amount ||
baseAmount || "0.00"; AMT001 when non-positive, nothing stored; otherwise a
PreAuth transaction with status APPROVED is stored whose amounts carry only
totalAmount (the JS object is authAmount, totalAmount; authAmount is a field
no claim reads and totalAmount equals it). -/
def handlePreAuth (s : Store) (amount baseAmount : Option Int) (rand : Nat) :
    Store × Bool :=
  let authAmount : Int := match amount with | some v => v | none => baseAmount.getD 0
  if authAmount ≤ 0 then (s, false)
  else
    let idc := generateIds s.counters rand
    let preAuthTxn : Txn :=
      { id := ""
        batchId := ""
        tranNo := idc.1.tranNo
        referenceNumber := idc.1.referenceNumber
        responseId := idc.1.responseId
        type := .PreAuth
        status := .APPROVED
        amounts :=
          { baseAmount := none
            tipAmount := none
            taxAmount := none
            cashbackAmount := none
            totalAmount := some authAmount
            authorizedAmount := none }
        originalTransaction := none
        partialApproval := false
        declineReason := none }
    (addTransaction { s with counters := idc.2 } preAuthTxn, true)

/-- One emulator operation as dispatched by route (lines 1217-1294), with its
request fields and the Math.random draw its generateIds call would consume. -/
inductive EmuOp where
  | sale (req : SaleReq) (rand : Nat)
  | preAuth (amount baseAmount : Option Int) (rand : Nat)
  | refund (totalAmount amount : Option Int) (ref : Option JsVal) (rand : Nat)
  | void (ref tranNo : Option JsVal) (rand : Nat)
  | tipAdjust (ref tranNo : Option JsVal) (rand : Nat)
  | batchClose (now : Nat)

/-- The store effect of one operation (handleBatchClose, lines 614-685, only
reads the snapshot for its report and calls store.closeBatch). -/
def applyOp (s : Store) : EmuOp → Store
  | .sale req rand => (handleSale s req rand).1
  | .preAuth amount baseAmount rand => (handlePreAuth s amount baseAmount rand).1
  | .refund totalAmount amount ref rand => (handleRefund s totalAmount amount ref rand).1
  | .void ref tranNo rand => (handleVoid s ref tranNo rand).1
  | .tipAdjust ref tranNo rand => (handleTipAdjust s ref tranNo rand).1
  | .batchClose now => (closeBatch s now).1

/-- A whole emulator history: fold the operations over the initial store. -/
def runOps (now : Nat) (ops : List EmuOp) : Store :=
  ops.foldl applyOp (initialStore now)

/-! ### Further definitions used by the verification -/

/-- Decimal digit characters of n, most significant first: the recursive
content of Nat.repr (whose fuel-indexed core toDigitsCore it is proved equal
to below). -/
def digitsRec (n : Nat) : List Char :=
  if _h : n < 10 then [Nat.digitChar n]
  else digitsRec (n / 10) ++ [Nat.digitChar (n % 10)]
decreasing_by exact Nat.div_lt_self (by omega) (by omega)

/-- Numeric value of an ASCII digit character. -/
def charVal (c : Char) : Nat := c.toNat - 48

/-- Read a digit string back to a number (used to invert digitsRec). -/
def readDigits (l : List Char) : Nat :=
  l.foldl (fun acc c => 10 * acc + charVal c) 0

/-- A payload byte list is valid wire JSON in the sense of the spec: nonempty
ASCII with no embedded STX/ETX/LF/CR/NUL, not starting or ending in
whitespace (a serialized JSON envelope starts with a brace and ends with
one). -/
def validPayload (e : List Nat) : Bool :=
  !e.isEmpty && e.all (fun b => !isScrubByte b) &&
  (match e.head? with | some b => !isWsByte b | none => true) &&
  (match e.getLast? with | some b => !isWsByte b | none => true)

/-- Well-formedness of the persisted store's identifiers: transaction ids are
pairwise distinct, and no transaction's tranNo or referenceNumber collides
with any transaction's id (generated ids look like TXN00000001, tranNos like
0001, referenceNumbers like 200000000000, so every reachable store satisfies
this). -/
def WfIds (s : Store) : Prop :=
  (s.transactions.map (·.id)).Nodup ∧
  ∀ t ∈ s.transactions, ∀ u ∈ s.transactions,
    t.tranNo ≠ u.id ∧ t.referenceNumber ≠ u.id

/-- Every stored tranNo (resp. referenceNumber) is the zero-padded (resp.
plain) decimal image of a counter value below the next counter, and both
columns are duplicate-free: the inductive invariant behind claim C3. -/
def C3Inv (s : Store) : Prop :=
  (∀ t ∈ s.transactions,
    (∃ c, c < s.counters.nextTranNo ∧ t.tranNo = padStartZeros 4 (Nat.repr c)) ∧
    (∃ c, c < s.counters.nextRefNo ∧ t.referenceNumber = Nat.repr c)) ∧
  (s.transactions.map (·.tranNo)).Nodup ∧
  (s.transactions.map (·.referenceNumber)).Nodup

/-- The pointwise effect of closeBatch's settlement pass on one stored
transaction: an APPROVED or TIP_ADJUSTED transaction of the batch with id cur
becomes SETTLED, every other transaction is untouched. -/
def settleMark (cur : String) (t : Txn) : Txn :=
  if ((t.status == TxnStatus.APPROVED || t.status == TxnStatus.TIP_ADJUSTED) &&
      t.batchId == cur) = true
  then { t with status := TxnStatus.SETTLED } else t

/-- The closed-batch record built by closeBatch (server.v1.js lines 174-180). -/
def closedBatchOf (s : Store) (now : Nat) : Batch :=
  { s.currentBatch with
    closeTime := some now
    isOpen := false
    settlementCount := some (getUnsettledTransactions s).length
    totalAmount := some ((getUnsettledTransactions s).foldl
      (fun a t => a + t.amounts.totalAmount.getD 0) 0) }

/-- The fresh batch record openNewBatch builds (server.v1.js lines 115-124). -/
def newBatchOf (s : Store) (now : Nat) : Batch :=
  { id := "B" ++ padStartZeros 4 (Nat.repr s.counters.nextBatchNo)
    openTime := now
    closeTime := none
    isOpen := true
    transactions := []
    settlementCount := none
    totalAmount := none }

/-- A concrete APPROVED Sale used in witness stores. -/
def wTxn1 : Txn :=
  { id := "TXN00000001", tranNo := "0001", referenceNumber := "200000000000",
    responseId := 200000000001, type := TxnType.Sale, status := TxnStatus.APPROVED,
    amounts :=
      { baseAmount := some 1000, tipAmount := some 0, taxAmount := some 0,
        cashbackAmount := some 0, totalAmount := some 1000,
        authorizedAmount := some 1000 },
    originalTransaction := none, partialApproval := false, declineReason := none,
    batchId := "B0001" }

/-- A concrete DECLINED Sale used in witness stores. -/
def wTxn2 : Txn :=
  { id := "TXN00000002", tranNo := "0002", referenceNumber := "200000000001",
    responseId := 200000000002, type := TxnType.Sale, status := TxnStatus.DECLINED,
    amounts :=
      { baseAmount := some 60000, tipAmount := some 0, taxAmount := some 0,
        cashbackAmount := some 0, totalAmount := some 60000,
        authorizedAmount := some 60000 },
    originalTransaction := none, partialApproval := false,
    declineReason := some "AMOUNT TOO HIGH", batchId := "B0001" }

/-- A small concrete store used to witness the batch-close and void claims:
one APPROVED and one DECLINED Sale inside the open batch B0001. -/
def wStoreC2 : Store :=
  { transactions := [wTxn1, wTxn2],
    batches := [],
    counters := { nextTranNo := 3, nextBatchNo := 2, nextRefNo := 200000000002 },
    currentBatch :=
      { id := "B0001", openTime := 0, closeTime := none, isOpen := true,
        transactions := ["TXN00000001", "TXN00000002"], settlementCount := none,
        totalAmount := none } }

/-- An empty amounts object. -/
def noAmounts : TxnAmounts :=
  { baseAmount := none, tipAmount := none, taxAmount := none,
    cashbackAmount := none, totalAmount := none, authorizedAmount := none }

/-- Lookup counterexample fixture: an early transaction whose referenceNumber
is the string X. -/
def c8Txn1 : Txn :=
  { id := "TXN00000001", tranNo := "0001", referenceNumber := "X",
    responseId := 1, type := TxnType.Sale, status := TxnStatus.APPROVED,
    amounts := noAmounts, originalTransaction := none, partialApproval := false,
    declineReason := none, batchId := "B0001" }

/-- Lookup counterexample fixture: a later transaction whose id is the string
X. -/
def c8Txn2 : Txn :=
  { id := "X", tranNo := "0002", referenceNumber := "200000000001",
    responseId := 2, type := TxnType.Sale, status := TxnStatus.APPROVED,
    amounts := noAmounts, originalTransaction := none, partialApproval := false,
    declineReason := none, batchId := "B0001" }

/-- Lookup counterexample store: c8Txn1 precedes c8Txn2. -/
def c8Store : Store :=
  { transactions := [c8Txn1, c8Txn2],
    batches := [],
    counters := { nextTranNo := 3, nextBatchNo := 2, nextRefNo := 200000000002 },
    currentBatch :=
      { id := "B0001", openTime := 0, closeTime := none, isOpen := true,
        transactions := ["TXN00000001", "X"], settlementCount := none,
        totalAmount := none } }

/-- The Sale request used by the id-collision counterexample. -/
def c3SaleReqA : SaleReq :=
  { baseAmount := some 1000, amount := none, tipAmount := none, taxAmount := none,
    cashbackAmount := none, pan := "4761739001010010" }

/-- The effective base amount of a Sale request (server.v1.js line 355). -/
def saleBaseOf (req : SaleReq) : Int :=
  match req.baseAmount with
  | some v => v
  | none => req.amount.getD 0

/-- The total amount of a Sale request: base + tip + tax + cashback in cents
(server.v1.js line 359). -/
def saleTotalOf (req : SaleReq) : Int :=
  saleBaseOf req + req.tipAmount.getD 0 + req.taxAmount.getD 0 +
    req.cashbackAmount.getD 0

/-- Sale request whose PAN ends in 0001 and whose total falls in the partial
window: the counterexample input for the decline-rule claim. -/
def c1ReqPan0001 : SaleReq :=
  { baseAmount := some 16000, amount := none, tipAmount := none, taxAmount := none,
    cashbackAmount := none, pan := "4761739001010001" }

/-- Shape invariant of the generated identifiers: every stored transaction id
is TXN plus the zero-padded insertion count (a positive number no larger than
the current store size), ids are duplicate-free, every stored batchId and the
open batch's id are B plus a zero-padded batch counter value below the next
batch counter.  Together with C3Inv this holds of every store the emulator
can reach and implies the WfIds and batch-freshness side conditions. -/
def EmuInv (s : Store) : Prop :=
  (∀ t ∈ s.transactions,
    (∃ c, 0 < c ∧ c ≤ s.transactions.length ∧
      t.id = "TXN" ++ padStartZeros 8 (Nat.repr c)) ∧
    (∃ c, c < s.counters.nextBatchNo ∧
      t.batchId = "B" ++ padStartZeros 4 (Nat.repr c))) ∧
  (s.transactions.map (·.id)).Nodup ∧
  (∃ c, c < s.counters.nextBatchNo ∧
    s.currentBatch.id = "B" ++ padStartZeros 4 (Nat.repr c))

/-- The resource-safety invariant of a session: before resolution there is no
result; once finished, the socket has been destroyed, both read timers are
cleared, and the promise is resolved with a result that carries an error
exactly when ok is false and a final response whenever ok is true. -/
def SessInv (st : SessState) : Prop :=
  (st.finished = false → st.result = none) ∧
  (st.finished = true →
    st.socketDestroyed = true ∧ st.overallArmed = false ∧ st.idleArmed = false ∧
    ∃ r, st.result = some r ∧ (r.ok = false ↔ r.error.isSome) ∧
      (r.ok = true → r.rsp.isSome))

/-! ### Decimal-string lemmas -/

theorem digitsRec_of_lt (n : Nat) (h : n < 10) : digitsRec n = [Nat.digitChar n] := by
  rw [digitsRec, dif_pos h]

theorem digitsRec_of_ge (n : Nat) (h : ¬ n < 10) :
    digitsRec n = digitsRec (n / 10) ++ [Nat.digitChar (n % 10)] := by
  rw [digitsRec, dif_neg h]

theorem toDigitsCore_eq_digitsRec (f : Nat) :
    ∀ n ds, n < f → Nat.toDigitsCore 10 f n ds = digitsRec n ++ ds := by
  induction f with
  | zero => intro n ds h; omega
  | succ f ih =>
    intro n ds h
    by_cases h10 : n / 10 = 0
    · have hn : n < 10 := by omega
      rw [Nat.toDigitsCore]
      simp only [h10, if_pos]
      rw [digitsRec_of_lt n hn, Nat.mod_eq_of_lt hn]
      rfl
    · have hn : ¬ n < 10 := by
        intro hc
        exact h10 (Nat.div_eq_of_lt hc)
      rw [Nat.toDigitsCore]
      simp only [h10, if_neg, ite_false]
      have hlt : n / 10 < f := by
        have h1 : n / 10 < n := Nat.div_lt_self (by omega) (by omega)
        omega
      rw [ih (n / 10) _ hlt, digitsRec_of_ge n hn]
      simp

theorem repr_eq_digitsRec (n : Nat) : Nat.repr n = (digitsRec n).asString := by
  unfold Nat.repr Nat.toDigits
  rw [toDigitsCore_eq_digitsRec (n + 1) n [] (Nat.lt_succ_self n)]
  simp

theorem charVal_digitChar (n : Nat) (h : n < 10) : charVal (Nat.digitChar n) = n := by
  interval_cases n <;> rfl

theorem digitsRec_foldl (n : Nat) :
    ∀ a, (digitsRec n).foldl (fun acc c => 10 * acc + charVal c) a
      = a * 10 ^ (digitsRec n).length + n := by
  induction n using Nat.strong_induction_on with
  | _ n ih =>
    intro a
    by_cases h : n < 10
    · rw [digitsRec_of_lt n h]
      simp only [List.foldl_cons, List.foldl_nil, List.length_cons, List.length_nil,
        zero_add, pow_one]
      rw [charVal_digitChar n h]
      ring
    · rw [digitsRec_of_ge n h]
      rw [List.foldl_append]
      have hd : n / 10 < n := Nat.div_lt_self (by omega) (by omega)
      rw [ih (n / 10) hd a]
      simp only [List.foldl_cons, List.foldl_nil, List.length_append, List.length_cons,
        List.length_nil, zero_add]
      have hmod : n % 10 < 10 := Nat.mod_lt _ (by omega)
      rw [charVal_digitChar _ hmod]
      have hdm : 10 * (n / 10) + n % 10 = n := Nat.div_add_mod n 10
      set k := (digitsRec (n / 10)).length with hk
      calc 10 * (a * 10 ^ k + n / 10) + n % 10
          = a * (10 ^ k * 10) + (10 * (n / 10) + n % 10) := by ring
        _ = a * 10 ^ (k + 1) + n := by rw [hdm, pow_succ]

theorem readDigits_digitsRec (n : Nat) : readDigits (digitsRec n) = n := by
  unfold readDigits
  rw [digitsRec_foldl n 0]
  simp

theorem digitsRec_injective : Function.Injective digitsRec := by
  intro m n h
  have hm := readDigits_digitsRec m
  rw [h, readDigits_digitsRec] at hm
  omega

theorem repr_injective : Function.Injective Nat.repr := by
  intro m n h
  rw [repr_eq_digitsRec, repr_eq_digitsRec] at h
  have hd : digitsRec m = digitsRec n := by
    have h2 := congrArg String.data h
    simpa using h2
  exact digitsRec_injective hd

theorem digitsRec_ne_nil (n : Nat) : digitsRec n ≠ [] := by
  by_cases h : n < 10
  · rw [digitsRec_of_lt n h]; simp
  · rw [digitsRec_of_ge n h]; simp

theorem digitChar_eq_zero_iff (n : Nat) (h : n < 10) : Nat.digitChar n = '0' ↔ n = 0 := by
  interval_cases n <;> decide

theorem digitsRec_head_ne_zero (n : Nat) (h : n ≠ 0) :
    ∀ c, (digitsRec n).head? = some c → c ≠ '0' := by
  induction n using Nat.strong_induction_on with
  | _ n ih =>
    intro c hc
    by_cases h10 : n < 10
    · rw [digitsRec_of_lt n h10] at hc
      simp at hc
      subst hc
      intro hzero
      exact h ((digitChar_eq_zero_iff n h10).mp hzero)
    · rw [digitsRec_of_ge n h10] at hc
      cases hds : digitsRec (n / 10) with
      | nil => exact absurd hds (digitsRec_ne_nil _)
      | cons d ds =>
        rw [hds] at hc
        simp at hc
        have hd : n / 10 < n := Nat.div_lt_self (by omega) (by omega)
        exact ih (n / 10) hd (by omega) c (by rw [hds, List.head?_cons, hc])

theorem asString_data (l : List Char) : (List.asString l).data = l := rfl

theorem repr_data (n : Nat) : (Nat.repr n).data = digitsRec n := by
  rw [repr_eq_digitsRec, asString_data]

theorem dropWhile_zeros_replicate (k : Nat) (l : List Char) :
    List.dropWhile (fun c => c == '0') (List.replicate k '0' ++ l)
      = List.dropWhile (fun c => c == '0') l := by
  induction k with
  | zero => simp
  | succ k ih => simp [List.replicate_succ, List.dropWhile_cons, ih]

theorem dropWhile_zeros_digitsRec (n : Nat) (h : n ≠ 0) :
    List.dropWhile (fun c => c == '0') (digitsRec n) = digitsRec n := by
  cases hds : digitsRec n with
  | nil => exact absurd hds (digitsRec_ne_nil _)
  | cons d ds =>
    have hd : d ≠ '0' := digitsRec_head_ne_zero n h d (by rw [hds, List.head?_cons])
    rw [List.dropWhile_cons, if_neg (by simpa using hd)]

theorem padStartZeros_repr_injective (w : Nat) (m n : Nat)
    (h : padStartZeros w (Nat.repr m) = padStartZeros w (Nat.repr n)) : m = n := by
  have hdata := congrArg String.data h
  unfold padStartZeros at hdata
  simp only [repr_data] at hdata
  by_cases hm : m = 0 <;> by_cases hn : n = 0
  · omega
  · exfalso
    have h0 : digitsRec 0 = ['0'] := by rw [digitsRec_of_lt 0 (by omega)]; rfl
    subst hm
    have hdw := congrArg (List.dropWhile (fun c => c == '0')) hdata
    rw [dropWhile_zeros_replicate, dropWhile_zeros_replicate, h0,
      dropWhile_zeros_digitsRec n hn] at hdw
    have : digitsRec n = [] := by simpa using hdw.symm
    exact digitsRec_ne_nil n this
  · exfalso
    have h0 : digitsRec 0 = ['0'] := by rw [digitsRec_of_lt 0 (by omega)]; rfl
    subst hn
    have hdw := congrArg (List.dropWhile (fun c => c == '0')) hdata
    rw [dropWhile_zeros_replicate, dropWhile_zeros_replicate, h0,
      dropWhile_zeros_digitsRec m hm] at hdw
    have : digitsRec m = [] := by simpa using hdw
    exact digitsRec_ne_nil m this
  · have hdw := congrArg (List.dropWhile (fun c => c == '0')) hdata
    rw [dropWhile_zeros_replicate, dropWhile_zeros_replicate,
      dropWhile_zeros_digitsRec m hm, dropWhile_zeros_digitsRec n hn] at hdw
    exact digitsRec_injective hdw

/-! ### Framing lemmas -/

theorem splitAtByte_of_not_mem (b : Nat) (pre post : List Nat) (h : b ∉ pre) :
    splitAtByte b (pre ++ b :: post) = some (pre, post) := by
  induction pre with
  | nil => simp [splitAtByte]
  | cons x xs ih =>
    have hx : x ≠ b := by intro hc; exact h (by simp [hc])
    simp only [List.cons_append, splitAtByte, if_neg hx, List.append_eq]
    rw [ih (by intro hc; exact h (List.mem_cons_of_mem _ hc))]
    rfl

theorem splitAtByte_eq_none (b : Nat) (l : List Nat) (h : b ∉ l) :
    splitAtByte b l = none := by
  induction l with
  | nil => rfl
  | cons x xs ih =>
    have hx : x ≠ b := by intro hc; exact h (by simp [hc])
    simp only [splitAtByte, if_neg hx]
    rw [ih (by intro hc; exact h (List.mem_cons_of_mem _ hc))]
    rfl

theorem splitAtByte_some_shape (b : Nat) :
    ∀ (l pre post : List Nat), splitAtByte b l = some (pre, post) →
      l = pre ++ b :: post ∧ b ∉ pre := by
  intro l
  induction l with
  | nil => intro pre post h; simp [splitAtByte] at h
  | cons x xs ih =>
    intro pre post h
    by_cases hx : x = b
    · rw [splitAtByte, if_pos hx] at h
      cases h
      simp [hx]
    · rw [splitAtByte, if_neg hx] at h
      cases hs : splitAtByte b xs with
      | none => rw [hs] at h; simp at h
      | some p =>
        rw [hs] at h
        simp at h
        obtain ⟨h1, h2⟩ := h
        obtain ⟨hl, hmem⟩ := ih p.1 p.2 hs
        constructor
        · rw [← h1, ← h2]; simp [hl]
        · rw [← h1]
          intro hc
          rcases List.mem_cons.mp hc with hc | hc
          · exact hx hc.symm
          · exact hmem hc

theorem extractRaw_spec (g m rest : List Nat) (hg : STX ∉ g) (hm : ETX ∉ m) :
    extractRaw (g ++ STX :: (m ++ ETX :: rest)) = some (m, rest) := by
  unfold extractRaw
  rw [splitAtByte_of_not_mem STX g (m ++ ETX :: rest) hg]
  simp only [splitAtByte_of_not_mem ETX m rest hm]

theorem extractRaw_none_of_no_stx (buf : List Nat) (h : STX ∉ buf) :
    extractRaw buf = none := by
  unfold extractRaw
  rw [splitAtByte_eq_none STX buf h]

theorem extractRaw_some_shape (buf raw rest : List Nat)
    (h : extractRaw buf = some (raw, rest)) :
    ∃ g, buf = g ++ STX :: (raw ++ ETX :: rest) ∧ STX ∉ g ∧ ETX ∉ raw := by
  unfold extractRaw at h
  cases h1 : splitAtByte STX buf with
  | none => rw [h1] at h; simp at h
  | some p =>
    obtain ⟨g, afterS⟩ := p
    rw [h1] at h
    cases h2 : splitAtByte ETX afterS with
    | none => simp only [h2] at h; simp at h
    | some q =>
      obtain ⟨raw2, rest2⟩ := q
      simp only [h2, Option.some_inj, Prod.mk.injEq] at h
      obtain ⟨hq1, hq2⟩ := h
      obtain ⟨hbuf, hg⟩ := splitAtByte_some_shape STX buf g afterS h1
      obtain ⟨hafter, hraw⟩ := splitAtByte_some_shape ETX afterS raw2 rest2 h2
      subst hq1 hq2
      exact ⟨g, by rw [hbuf, hafter], hg, hraw⟩

theorem extractRaw_length (buf raw rest : List Nat)
    (h : extractRaw buf = some (raw, rest)) : rest.length + 2 ≤ buf.length := by
  obtain ⟨g, hbuf, -, -⟩ := extractRaw_some_shape buf raw rest h
  rw [hbuf]
  simp
  omega

theorem drainAux_fuel_invariant (f1 : Nat) :
    ∀ f2 buf, buf.length ≤ f1 → buf.length ≤ f2 → drainAux f1 buf = drainAux f2 buf := by
  induction f1 with
  | zero =>
    intro f2 buf h1 _h2
    have hb : buf = [] := List.eq_nil_of_length_eq_zero (by omega)
    subst hb
    cases f2 with
    | zero => rfl
    | succ f2 => simp [drainAux, extractRaw, splitAtByte]
  | succ f1 ih =>
    intro f2 buf h1 h2
    cases f2 with
    | zero =>
      have hb : buf = [] := List.eq_nil_of_length_eq_zero (by omega)
      subst hb
      simp [drainAux, extractRaw, splitAtByte]
    | succ f2 =>
      simp only [drainAux]
      cases h : extractRaw buf with
      | none => rfl
      | some p =>
        obtain ⟨raw, rest⟩ := p
        have hlen := extractRaw_length buf raw rest h
        simp only []
        rw [ih f2 rest (by omega) (by omega)]

theorem drainFrames_unfold (buf : List Nat) :
    drainFrames buf =
      match extractRaw buf with
      | none => []
      | some (raw, rest) => stripFrame raw :: drainFrames rest := by
  unfold drainFrames
  cases h : extractRaw buf with
  | none =>
    cases hb : buf with
    | nil => rfl
    | cons x xs =>
      simp only [List.length_cons, drainAux, hb ▸ h]
  | some p =>
    obtain ⟨raw, rest⟩ := p
    have hlen := extractRaw_length buf raw rest h
    have hpos : buf.length = (buf.length - 1) + 1 := by omega
    rw [hpos]
    simp only [drainAux, h]
    rw [drainAux_fuel_invariant (buf.length - 1) rest.length rest (by omega) (by omega)]

/-! ### Trim and strip lemmas -/

theorem validPayload_parts (e : List Nat) (hv : validPayload e = true) :
    e ≠ [] ∧ (∀ b ∈ e, isScrubByte b = false) ∧
    (∀ b, e.head? = some b → isWsByte b = false) ∧
    (∀ b, e.getLast? = some b → isWsByte b = false) := by
  unfold validPayload at hv
  simp only [Bool.and_eq_true, List.all_eq_true, Bool.not_eq_true'] at hv
  obtain ⟨⟨⟨h1, h2⟩, h3⟩, h4⟩ := hv
  refine ⟨by simpa using h1, h2, ?_, ?_⟩
  · intro b hb
    rw [hb] at h3
    simpa using h3
  · intro b hb
    rw [hb] at h4
    simpa using h4

theorem dropWhile_ws_append (f l : List Nat) (hf : ∀ b ∈ f, isWsByte b = true) :
    (f ++ l).dropWhile isWsByte = l.dropWhile isWsByte := by
  induction f with
  | nil => rfl
  | cons x xs ih =>
    rw [List.cons_append, List.dropWhile_cons, if_pos (hf x (by simp))]
    exact ih (fun b hb => hf b (List.mem_cons_of_mem _ hb))

theorem trimBytes_wrap (e f1 f2 : List Nat) (hne : e ≠ [])
    (hf1 : ∀ b ∈ f1, isWsByte b = true) (hf2 : ∀ b ∈ f2, isWsByte b = true)
    (hh : ∀ b, e.head? = some b → isWsByte b = false)
    (hl : ∀ b, e.getLast? = some b → isWsByte b = false) :
    trimBytes (f1 ++ (e ++ f2)) = e := by
  unfold trimBytes
  rw [dropWhile_ws_append f1 _ hf1]
  have h1 : (e ++ f2).dropWhile isWsByte = e ++ f2 := by
    cases e with
    | nil => exact absurd rfl hne
    | cons x xs =>
      rw [List.cons_append, List.dropWhile_cons, if_neg (by simp [hh x rfl])]
  rw [h1, List.reverse_append]
  rw [dropWhile_ws_append f2.reverse e.reverse
    (by intro b hb; exact hf2 b (List.mem_reverse.mp hb))]
  have h2 : e.reverse.dropWhile isWsByte = e.reverse := by
    cases hr : e.reverse with
    | nil => rfl
    | cons y ys =>
      have hy : e.getLast? = some y := by rw [← List.head?_reverse, hr]; rfl
      rw [List.dropWhile_cons, if_neg (by simp [hl y hy])]
  rw [h2, List.reverse_reverse]

theorem trimBytes_eq_self (e : List Nat) (hne : e ≠ [])
    (hh : ∀ b, e.head? = some b → isWsByte b = false)
    (hl : ∀ b, e.getLast? = some b → isWsByte b = false) :
    trimBytes e = e := by
  have h := trimBytes_wrap e [] [] hne (by simp) (by simp) hh hl
  simpa using h

theorem stripFrame_eq (m e : List Nat) (hm : m.filter (fun b => !isScrubByte b) = e)
    (hv : validPayload e = true) : stripFrame m = e := by
  obtain ⟨hne, _hscrub, hh, hl⟩ := validPayload_parts e hv
  unfold stripFrame
  rw [hm]
  exact trimBytes_eq_self e hne hh hl

theorem scrub_free_filter (e : List Nat) (h : ∀ b ∈ e, isScrubByte b = false) :
    e.filter (fun b => !isScrubByte b) = e := by
  rw [List.filter_eq_self]
  intro b hb
  simp [h b hb]

theorem not_mem_of_scrub_free (e : List Nat) (h : ∀ b ∈ e, isScrubByte b = false)
    (b : Nat) (hb : isScrubByte b = true) : b ∉ e := by
  intro hmem
  rw [h b hmem] at hb
  exact Bool.false_ne_true hb

theorem lf_wrap_filter (e : List Nat) (h : ∀ b ∈ e, isScrubByte b = false) :
    (LF :: (e ++ [LF])).filter (fun b => !isScrubByte b) = e := by
  rw [List.filter_cons, List.filter_append]
  rw [scrub_free_filter e h]
  simp [LF, isScrubByte]

theorem frameJson_shape (e : List Nat) :
    frameJson e = [] ++ STX :: ((LF :: (e ++ [LF])) ++ ETX :: [LF]) := by
  simp [frameJson]

theorem extractRaw_frameJson (g e : List Nat) (hg : STX ∉ g)
    (hscrub : ∀ b ∈ e, isScrubByte b = false) :
    extractRaw (g ++ frameJson e) = some (LF :: (e ++ [LF]), [LF]) := by
  have h3 : ETX ∉ LF :: (e ++ [LF]) := by
    intro hc
    rcases List.mem_cons.mp hc with hc | hc
    · simp [ETX, LF] at hc
    · rcases List.mem_append.mp hc with hc | hc
      · exact not_mem_of_scrub_free e hscrub ETX (by rfl) hc
      · simp [ETX, LF] at hc
  have hshape : g ++ frameJson e = g ++ STX :: ((LF :: (e ++ [LF])) ++ ETX :: [LF]) := by
    rw [frameJson_shape]
    simp
  rw [hshape]
  exact extractRaw_spec g (LF :: (e ++ [LF])) [LF] hg h3

theorem extractRaw_frameJson_tail (g e tail : List Nat) (hg : STX ∉ g)
    (hscrub : ∀ b ∈ e, isScrubByte b = false) :
    extractRaw (g ++ (frameJson e ++ tail)) = some (LF :: (e ++ [LF]), LF :: tail) := by
  have h3 : ETX ∉ LF :: (e ++ [LF]) := by
    intro hc
    rcases List.mem_cons.mp hc with hc | hc
    · simp [ETX, LF] at hc
    · rcases List.mem_append.mp hc with hc | hc
      · exact not_mem_of_scrub_free e hscrub ETX (by rfl) hc
      · simp [ETX, LF] at hc
  have hshape : g ++ (frameJson e ++ tail)
      = g ++ STX :: ((LF :: (e ++ [LF])) ++ ETX :: (LF :: tail)) := by
    simp [frameJson]
  rw [hshape]
  exact extractRaw_spec g (LF :: (e ++ [LF])) (LF :: tail) hg h3

theorem drainFrames_some (buf raw rest : List Nat)
    (h : extractRaw buf = some (raw, rest)) :
    drainFrames buf = stripFrame raw :: drainFrames rest := by
  rw [drainFrames_unfold, h]

theorem drainFrames_none (buf : List Nat) (h : extractRaw buf = none) :
    drainFrames buf = [] := by
  rw [drainFrames_unfold, h]

theorem trimBytes_lf_wrap (e : List Nat) (hv : validPayload e = true) :
    trimBytes (LF :: (e ++ [LF])) = e := by
  obtain ⟨hne, _hscrub, hh, hl⟩ := validPayload_parts e hv
  have h := trimBytes_wrap e [LF] [LF] hne (by simp [LF, isWsByte])
    (by simp [LF, isWsByte]) hh hl
  simpa using h

theorem stripFrame_lf_wrap (e : List Nat) (hv : validPayload e = true) :
    stripFrame (LF :: (e ++ [LF])) = e := by
  obtain ⟨_, hscrub, _, _⟩ := validPayload_parts e hv
  exact stripFrame_eq _ e (lf_wrap_filter e hscrub) hv

theorem drainFrames_lf : drainFrames [LF] = [] :=
  drainFrames_none [LF] (extractRaw_none_of_no_stx [LF] (by simp [STX, LF]))

/-- C6.  For every valid envelope payload e: decoding the encoded frame yields
e back; a prefix of garbage bytes containing no STX does not change the
decoding; LF filler and stray scrubbed bytes inside the frame window (any
window m whose scrub-surviving content is e) decode to the same e; and
framing is injective.  This is the statement of claim C6 over the byte-level
framer (frameJson / FrameAccumulator). -/
theorem C6_frame_roundtrip (e g m e2 : List Nat)
    (hv : validPayload e = true) (hg : STX ∉ g)
    (hm : m.filter (fun b => !isScrubByte b) = e) (hmE : ETX ∉ m)
    (hinj : frameJson e = frameJson e2) :
    drainFrames (frameJson e) = [e] ∧
    drainFrames (g ++ frameJson e) = [e] ∧
    drainFrames (g ++ STX :: (m ++ [ETX])) = [e] ∧
    e2 = e := by
  obtain ⟨hne, hscrub, hh, hl⟩ := validPayload_parts e hv
  have hdrain : ∀ g', STX ∉ g' → drainFrames (g' ++ frameJson e) = [e] := by
    intro g' hg'
    have hx : extractRaw (g' ++ frameJson e) = some (LF :: (e ++ [LF]), [LF]) := by
      have h := extractRaw_frameJson_tail g' e [] hg' hscrub
      simpa using h
    rw [drainFrames_some _ _ _ hx, stripFrame_lf_wrap e hv, drainFrames_lf]
  refine ⟨?_, hdrain g hg, ?_, ?_⟩
  · have h := hdrain [] (by simp [STX])
    simpa using h
  · have hx : extractRaw (g ++ STX :: (m ++ [ETX])) = some (m, []) :=
      extractRaw_spec g m [] hg hmE
    rw [drainFrames_some _ _ _ hx, stripFrame_eq m e hm hv]
    rfl
  · have h2 := congrArg (List.drop 2) hinj
    simp [frameJson, STX, LF, ETX] at h2
    exact h2.symm

/-- Witness for C6 at the concrete envelope bytes of an empty JSON object. -/
theorem C6_frame_roundtrip_witness :
    drainFrames (frameJson [123, 125]) = [[123, 125]] ∧
    drainFrames ([0, 65] ++ frameJson [123, 125]) = [[123, 125]] ∧
    drainFrames ([0, 65] ++ STX :: (([10, 123, 125, 10] : List Nat) ++ [ETX]))
      = [[123, 125]] ∧
    ([123, 125] : List Nat) = [123, 125] :=
  C6_frame_roundtrip [123, 125] [0, 65] [10, 123, 125, 10] [123, 125]
    (by decide) (by decide) (by decide) (by decide) rfl

/-- C10 counterexample.  A single data chunk carrying two complete frames:
the repeated-scan decoder (FrameAccumulator.push / the emulator receive loop)
delivers both frames at once, but processFrames - which runs once per data
event with no loop - delivers only the first, so the two decoders do NOT
produce the same sequence for this chunk. -/
theorem C10_counterexample :
    (procRun [frameJson [123, 125] ++ frameJson [91, 93]]).2 = [[123, 125]] ∧
    drainFrames (frameJson [123, 125] ++ frameJson [91, 93])
      = [[123, 125], [91, 93]] ∧
    (procRun [frameJson [123, 125] ++ frameJson [91, 93]]).2 ≠
      drainFrames (frameJson [123, 125] ++ frameJson [91, 93]) := by
  refine ⟨by decide, by decide, by decide⟩

/-- C10 amended.  processFrames decodes at most one frame per received chunk:
when a single chunk carries two complete frames it emits only the first at
that event, and emits the second only when the next chunk (of any content)
arrives; the repeated-scan decoders emit both immediately, so the two
decoders agree only once a further chunk has arrived. -/
theorem C10_one_frame_per_chunk (e1 e2 c : List Nat)
    (h1 : validPayload e1 = true) (h2 : validPayload e2 = true) :
    (procRun [frameJson e1 ++ frameJson e2]).2 = [e1] ∧
    (procRun [frameJson e1 ++ frameJson e2, c]).2 = [e1, e2] ∧
    drainFrames (frameJson e1 ++ frameJson e2) = [e1, e2] := by
  obtain ⟨hne1, hscrub1, _, _⟩ := validPayload_parts e1 h1
  obtain ⟨hne2, hscrub2, _, _⟩ := validPayload_parts e2 h2
  have hx1 : extractRaw (frameJson e1 ++ frameJson e2)
      = some (LF :: (e1 ++ [LF]), LF :: frameJson e2) := by
    have h := extractRaw_frameJson_tail [] e1 (frameJson e2) (by simp [STX]) hscrub1
    simpa using h
  have hx2 : ∀ tail, extractRaw (LF :: (frameJson e2 ++ tail))
      = some (LF :: (e2 ++ [LF]), LF :: tail) := by
    intro tail
    have h := extractRaw_frameJson_tail [LF] e2 tail (by simp [STX, LF]) hscrub2
    simpa using h
  have hstep1 : procStep (frameJson e1 ++ frameJson e2)
      = (LF :: frameJson e2, [e1]) := by
    unfold procStep
    rw [hx1]
    simp only [trimBytes_lf_wrap e1 h1]
    rw [if_neg hne1]
  have hstep2 : procStep (LF :: (frameJson e2 ++ c)) = (LF :: c, [e2]) := by
    unfold procStep
    rw [hx2 c]
    simp only [trimBytes_lf_wrap e2 h2]
    rw [if_neg hne2]
  refine ⟨?_, ?_, ?_⟩
  · simp [procRun, hstep1]
  · simp [procRun, hstep1, hstep2]
  · rw [drainFrames_some _ _ _ hx1, stripFrame_lf_wrap e1 h1]
    have hr : LF :: frameJson e2 = LF :: (frameJson e2 ++ []) := by simp
    rw [hr, drainFrames_some _ _ _ (hx2 []), stripFrame_lf_wrap e2 h2, drainFrames_lf]

/-- Witness for C10 amended at two concrete frames and a one-byte next chunk. -/
theorem C10_one_frame_per_chunk_witness :
    (procRun [frameJson [123, 125] ++ frameJson [91, 93]]).2 = [[123, 125]] ∧
    (procRun [frameJson [123, 125] ++ frameJson [91, 93], [65]]).2
      = [[123, 125], [91, 93]] ∧
    drainFrames (frameJson [123, 125] ++ frameJson [91, 93])
      = [[123, 125], [91, 93]] :=
  C10_one_frame_per_chunk [123, 125] [91, 93] [65] (by decide) (by decide)

/-! ### The final-message commit gate -/

theorem sessionOutcome_cons (m : String) (rest : List String) :
    sessionOutcome (m :: rest)
      = if dispositionOf m = .final then some m else sessionOutcome rest := by
  cases hd : dispositionOf m <;> simp [sessionOutcome, hd]

theorem dispositionOf_final_iff (m : String) :
    dispositionOf m = .final ↔ (m = "RSP" ∨ m = "ERR" ∨ m = "MSG") := by
  unfold dispositionOf
  split_ifs with h1 h2 h3
  · obtain rfl := eq_of_beq h1
    decide
  · have hmem : m ∈ progressMessages := by
      exact List.elem_iff.mp h2
    fin_cases hmem <;> decide
  · simp only [Bool.or_eq_true, beq_iff_eq] at h3
    simp [h3]
    tauto
  · simp only [Bool.or_eq_true, beq_iff_eq, not_or] at h3
    constructor
    · intro hc; exact absurd hc (by decide)
    · intro hc; exfalso; tauto

/-- C5.  In a Protocol Engine session, a received frame whose message is ACK,
a progress event (EVT/DSP/PIN/CNF/READY) or any unrecognized value never
terminates the session; the session is resolved (successfully) exactly when a
frame with message MSG, RSP or ERR is received, and the resolving frame is
always one of those three: the allow-list is the sole commit gate. -/
theorem C5_final_commit_gate (ms : List String) :
    ((sessionOutcome ms).isSome ↔ ∃ m ∈ ms, m = "RSP" ∨ m = "ERR" ∨ m = "MSG") ∧
    (∀ m, sessionOutcome ms = some m → (m = "RSP" ∨ m = "ERR" ∨ m = "MSG")) := by
  induction ms with
  | nil => simp [sessionOutcome]
  | cons m rest ih =>
    rw [sessionOutcome_cons]
    by_cases hf : dispositionOf m = .final
    · have hm := (dispositionOf_final_iff m).mp hf
      rw [if_pos hf]
      constructor
      · simp only [Option.isSome_some, true_iff]
        exact ⟨m, by simp, hm⟩
      · intro m' hm'
        obtain rfl : m = m' := by simpa using hm'
        exact hm
    · have hm := (dispositionOf_final_iff m).not.mp hf
      rw [if_neg hf]
      constructor
      · rw [ih.1]
        constructor
        · intro ⟨m', hmem, hfin⟩
          exact ⟨m', List.mem_cons_of_mem _ hmem, hfin⟩
        · intro ⟨m', hmem, hfin⟩
          rcases List.mem_cons.mp hmem with rfl | hmem
          · exact absurd hfin hm
          · exact ⟨m', hmem, hfin⟩
      · exact ih.2

/-- Witness for C5 at a concrete session transcript: an ACK, a progress
event, an unknown message, then the final MSG. -/
theorem C5_final_commit_gate_witness :
    sessionOutcome ["ACK", "DSP", "WEIRD", "MSG"] = some "MSG" ∧
    ("MSG" = "RSP" ∨ "MSG" = "ERR" ∨ "MSG" = "MSG") := by
  refine ⟨by decide, (C5_final_commit_gate ["ACK", "DSP", "WEIRD", "MSG"]).2 "MSG" (by decide)⟩

/-! ### Session resource-safety lemmas -/

theorem sessInv_init : SessInv initSession := by
  constructor
  · intro _; rfl
  · intro h; simp [initSession] at h

theorem sessInv_done (st : SessState) (error rsp : Option String) (h : SessInv st)
    (hcall : error = none → rsp.isSome) : SessInv (doneSession st error rsp) := by
  unfold doneSession
  by_cases hf : st.finished
  · rw [if_pos hf]; exact h
  · rw [if_neg hf]
    constructor
    · intro hc; simp at hc
    · intro _
      refine ⟨rfl, rfl, rfl, ?_⟩
      cases error with
      | some e => exact ⟨_, rfl, by simp, by simp⟩
      | none => exact ⟨_, rfl, by simp, fun _ => hcall rfl⟩

theorem sessInv_buffer (st : SessState) (b : List Nat) (h : SessInv st) :
    SessInv { st with buffer := b } := h

theorem sessInv_procFrames (parse : List Nat → Option String) (st : SessState)
    (h : SessInv st) : SessInv (sessProcFrames parse st) := by
  unfold sessProcFrames
  cases hx : extractRaw st.buffer with
  | none => exact h
  | some p =>
    obtain ⟨raw, rest⟩ := p
    simp only []
    split
    · exact sessInv_buffer st rest h
    · cases hp : parse (trimBytes raw) with
      | none => exact sessInv_buffer st rest h
      | some m =>
        simp only []
        split
        · exact sessInv_done _ none (some m) (sessInv_buffer st rest h) (fun _ => rfl)
        · exact sessInv_buffer st rest h

theorem sessInv_step (parse : List Nat → Option String) (st : SessState)
    (ev : SessEvent) (h : SessInv st) : SessInv (sessStep parse st ev) := by
  cases ev with
  | connectGuardFires =>
    simp only [sessStep]
    split
    · exact sessInv_done st _ none h (by intro hc; cases hc)
    · exact h
  | connectSucceeds =>
    simp only [sessStep]
    split
    · exact h
    · rename_i hf
      constructor
      · intro _; exact h.1 (by simpa using hf)
      · intro hc; exact absurd hc hf
  | dataChunk c =>
    simp only [sessStep]
    split
    · exact h
    · rename_i hf
      apply sessInv_procFrames
      constructor
      · intro _; exact h.1 (by simpa using hf)
      · intro hc; exact absurd hc hf
  | socketError msg =>
    simp only [sessStep]
    exact sessInv_done st _ none h (by intro hc; cases hc)
  | overallFires =>
    simp only [sessStep]
    split
    · exact sessInv_done st _ none h (by intro hc; cases hc)
    · exact h
  | idleFires =>
    simp only [sessStep]
    split
    · exact sessInv_done st _ none h (by intro hc; cases hc)
    · exact h

theorem sessInv_run (parse : List Nat → Option String) (evs : List SessEvent) :
    SessInv (sessRun parse evs) := by
  unfold sessRun
  have hgen : ∀ st, SessInv st → SessInv (evs.foldl (sessStep parse) st) := by
    induction evs with
    | nil => intro st h; exact h
    | cons ev rest ih =>
      intro st h
      exact ih _ (sessInv_step parse st ev h)
  exact hgen initSession sessInv_init

/-- C9.  A session never raises: it is modelled by a total transition
function, and whenever it has resolved (on a final frame, connect timeout,
read timeout, idle timeout, connect or socket error) the socket has been
destroyed, both the overall and idle read timers are cleared, and the
resolved value carries an error exactly when ok is false - transport failures
are returned, never thrown - and a final response when ok is true. -/
theorem C9_session_cleanup (parse : List Nat → Option String) (evs : List SessEvent)
    (h : (sessRun parse evs).finished = true) :
    (sessRun parse evs).socketDestroyed = true ∧
    (sessRun parse evs).overallArmed = false ∧
    (sessRun parse evs).idleArmed = false ∧
    ∃ r, (sessRun parse evs).result = some r ∧
      (r.ok = false ↔ r.error.isSome) ∧ (r.ok = true → r.rsp.isSome) :=
  (sessInv_run parse evs).2 h

/-- Witness for C9 at a concrete failing session: connect succeeds, then the
socket errors out. -/
theorem C9_session_cleanup_witness :
    (sessRun (fun _ => none) [.connectSucceeds, .socketError "ECONNRESET"]).finished
      = true ∧
    ((sessRun (fun _ => none) [.connectSucceeds, .socketError "ECONNRESET"]).socketDestroyed = true ∧
     (sessRun (fun _ => none) [.connectSucceeds, .socketError "ECONNRESET"]).overallArmed = false ∧
     (sessRun (fun _ => none) [.connectSucceeds, .socketError "ECONNRESET"]).idleArmed = false ∧
     ∃ r, (sessRun (fun _ => none) [.connectSucceeds, .socketError "ECONNRESET"]).result = some r ∧
       (r.ok = false ↔ r.error.isSome) ∧ (r.ok = true → r.rsp.isSome)) :=
  ⟨by decide, C9_session_cleanup (fun _ => none) [.connectSucceeds, .socketError "ECONNRESET"] (by decide)⟩

/-- C4 (code-bug evidence).  The /sale route crashes to HTTP 500 on the two
top-level body shapes its own comments promise to accept (body without a sale
object; sale object without a transaction), and only a present nested
transaction lacking baseAmount reaches the intended HTTP 400. -/
theorem C4_sale_route_top_level_500 :
    handleSaleRoute
      { sale := none, params := none,
        transaction := some
          { baseAmount := some 5, tipAmount := none, taxAmount := none,
            cashBackAmount := none, taxIndicator := none, allowDuplicate := none,
            allowPartialAuth := none } } = .serverError ∧
    handleSaleRoute
      { sale := some { params := none, transaction := none }, params := none,
        transaction := none } = .serverError ∧
    handleSaleRoute
      { sale := some
          { params := none,
            transaction := some
              { baseAmount := none, tipAmount := none, taxAmount := none,
                cashBackAmount := none, taxIndicator := none, allowDuplicate := none,
                allowPartialAuth := none } },
        params := none, transaction := none } = .badRequest "baseAmount is required" :=
  ⟨rfl, rfl, rfl⟩

/-! ### Store lookup and update lemmas -/

theorem updFirst_map_field {α : Type} (p : Txn → Bool) (f : Txn → Txn) (g : Txn → α)
    (hf : ∀ t, g (f t) = g t) :
    ∀ ts : List Txn, (updFirst p f ts).map g = ts.map g := by
  intro ts
  induction ts with
  | nil => rfl
  | cons t ts ih =>
    unfold updFirst
    split
    · simp [hf t]
    · simp [ih]

theorem updFirst_no_match (p : Txn → Bool) (f : Txn → Txn) :
    ∀ ts : List Txn, (∀ t ∈ ts, p t = false) → updFirst p f ts = ts := by
  intro ts
  induction ts with
  | nil => intro _; rfl
  | cons t ts ih =>
    intro h
    unfold updFirst
    rw [if_neg (by simp [h t (by simp)]), ih (fun u hu => h u (List.mem_cons_of_mem _ hu))]

theorem updFirst_eq_map (i : String) (f : Txn → Txn) (ts : List Txn)
    (hnodup : (ts.map (·.id)).Nodup)
    (hmatch : ∀ t ∈ ts, updMatches i t = (t.id == i)) :
    updFirst (updMatches i) f ts = ts.map (fun t => if t.id = i then f t else t) := by
  induction ts with
  | nil => rfl
  | cons t ts ih =>
    have hm := hmatch t (by simp)
    by_cases ht : t.id = i
    · unfold updFirst
      rw [if_pos (by rw [hm]; exact beq_iff_eq.mpr ht)]
      rw [List.map_cons, if_pos ht]
      have hrest : ∀ u ∈ ts, u.id ≠ i := by
        intro u hu hc
        have hni : t.id ∉ ts.map (·.id) := (List.nodup_cons.mp (by simpa using hnodup)).1
        exact hni (by rw [ht, ← hc]; exact List.mem_map_of_mem _ hu)
      have : ts.map (fun u => if u.id = i then f u else u) = ts := by
        rw [List.map_congr_left (fun u hu => by rw [if_neg (hrest u hu)])]
        exact List.map_id ts
      rw [this]
    · unfold updFirst
      rw [if_neg (by rw [hm]; simp [ht])]
      rw [List.map_cons, if_neg ht]
      rw [ih (by simpa using (List.nodup_cons.mp (by simpa using hnodup)).2)
        (fun u hu => hmatch u (List.mem_cons_of_mem _ hu))]

theorem wf_updMatches (s : Store) (hwf : WfIds s) (u : Txn) (hu : u ∈ s.transactions) :
    ∀ t ∈ s.transactions, updMatches u.id t = (t.id == u.id) := by
  intro t ht
  unfold updMatches
  rw [beq_eq_false_iff_ne.mpr (hwf.2 t ht u hu).1,
    beq_eq_false_iff_ne.mpr (hwf.2 t ht u hu).2]
  simp

theorem setStatus_id (st : TxnStatus) (t : Txn) : ({ t with status := st } : Txn).id = t.id := rfl

theorem foldl_updateTransaction (f : Txn → Txn) (us : List Txn) :
    ∀ s : Store,
      us.foldl (fun acc t => updateTransaction acc t.id f) s
        = { s with transactions :=
              us.foldl (fun lacc t => updFirst (updMatches t.id) f lacc) s.transactions } := by
  induction us with
  | nil => intro s; rfl
  | cons u us ih =>
    intro s
    simp only [List.foldl_cons]
    rw [ih (updateTransaction s u.id f)]
    rfl

theorem foldl_updFirst_eq_map (st : TxnStatus) (us : List Txn) :
    ∀ ts : List Txn, (ts.map (·.id)).Nodup →
      (∀ u ∈ us, ∀ t ∈ ts, updMatches u.id t = (t.id == u.id)) →
      us.foldl
        (fun lacc u => updFirst (updMatches u.id) (fun x => { x with status := st }) lacc) ts
        = ts.map (fun t => if t.id ∈ us.map (·.id) then { t with status := st } else t) := by
  induction us with
  | nil =>
    intro ts _ _
    simp
  | cons u us ih =>
    intro ts hnodup hus
    simp only [List.foldl_cons]
    rw [updFirst_eq_map u.id _ ts hnodup (hus u (by simp))]
    have hpresid : ∀ t : Txn,
        ((if t.id = u.id then ({ t with status := st } : Txn) else t)).id = t.id := by
      intro t; split <;> rfl
    have hnodup2 : ((ts.map fun t => if t.id = u.id then { t with status := st } else t).map
        (·.id)).Nodup := by
      rw [List.map_map]
      have : ((fun t : Txn => t.id) ∘ fun t => if t.id = u.id then { t with status := st } else t)
          = fun t : Txn => t.id := by
        funext t; simp [hpresid t]
      rw [this]
      exact hnodup
    have hus2 : ∀ u' ∈ us, ∀ t ∈ ts.map (fun t => if t.id = u.id then { t with status := st } else t),
        updMatches u'.id t = (t.id == u'.id) := by
      intro u' hu' t ht
      obtain ⟨t0, ht0, rfl⟩ := List.mem_map.mp ht
      have h0 := hus u' (List.mem_cons_of_mem _ hu') t0 ht0
      by_cases hc : t0.id = u.id
      · rw [if_pos hc]
        unfold updMatches at h0 ⊢
        exact h0
      · rw [if_neg hc]
        exact h0
    rw [ih _ hnodup2 hus2]
    rw [List.map_map]
    apply List.map_congr_left
    intro t _
    simp only [Function.comp_apply]
    by_cases h1 : t.id = u.id
    · rw [if_pos h1]
      have hid : ({ t with status := st } : Txn).id = t.id := rfl
      rw [hid]
      have hset : ({ ({ t with status := st } : Txn) with status := st } : Txn)
          = { t with status := st } := rfl
      split
      · rw [List.map_cons]
        rw [if_pos (by simp [h1])]
      · rw [List.map_cons]
        rw [if_pos (by simp [h1])]
    · rw [if_neg h1]
      rw [List.map_cons]
      by_cases h2 : t.id ∈ us.map (·.id)
      · rw [if_pos h2, if_pos (by simp [h2])]
      · rw [if_neg h2, if_neg (by simp [h1, h2])]

theorem mem_filter_map_id_iff (ts : List Txn) (hnodup : (ts.map (·.id)).Nodup)
    (p : Txn → Bool) (t : Txn) (ht : t ∈ ts) :
    t.id ∈ ((ts.filter p).map (·.id)) ↔ p t = true := by
  constructor
  · intro hmem
    obtain ⟨u, hu, huid⟩ := List.mem_map.mp hmem
    obtain ⟨humem, hup⟩ := List.mem_filter.mp hu
    have : u = t := List.inj_on_of_nodup_map hnodup humem ht huid
    rw [← this]
    exact hup
  · intro hp
    exact List.mem_map_of_mem _ (List.mem_filter.mpr ⟨ht, hp⟩)

theorem settle_foldl_char (s : Store) (hwf : WfIds s) :
    (getUnsettledTransactions s).foldl
        (fun acc t => updateTransaction acc t.id
          (fun u => { u with status := TxnStatus.SETTLED })) s
      = { s with transactions := s.transactions.map (settleMark s.currentBatch.id) } := by
  rw [foldl_updateTransaction]
  have hus : ∀ u ∈ getUnsettledTransactions s, ∀ t ∈ s.transactions,
      updMatches u.id t = (t.id == u.id) := by
    intro u hu
    exact wf_updMatches s hwf u (List.mem_of_mem_filter hu)
  rw [foldl_updFirst_eq_map TxnStatus.SETTLED (getUnsettledTransactions s)
    s.transactions hwf.1 hus]
  have hmap : s.transactions.map
      (fun t => if t.id ∈ (getUnsettledTransactions s).map (·.id)
                then { t with status := TxnStatus.SETTLED } else t)
      = s.transactions.map (settleMark s.currentBatch.id) := by
    apply List.map_congr_left
    intro t ht
    have hiff : t.id ∈ (getUnsettledTransactions s).map (·.id) ↔
        ((t.status == TxnStatus.APPROVED || t.status == TxnStatus.TIP_ADJUSTED) &&
          t.batchId == s.currentBatch.id) = true :=
      mem_filter_map_id_iff s.transactions hwf.1 _ t ht
    unfold settleMark
    by_cases hc : ((t.status == TxnStatus.APPROVED || t.status == TxnStatus.TIP_ADJUSTED) &&
        t.batchId == s.currentBatch.id) = true
    · rw [if_pos hc, if_pos (hiff.mpr hc)]
    · rw [if_neg hc, if_neg (fun hmem => hc (hiff.mp hmem))]
  rw [hmap]

theorem closeBatch_char (s : Store) (now : Nat) (hwf : WfIds s) :
    closeBatch s now
      = ({ transactions := s.transactions.map (settleMark s.currentBatch.id),
           batches := s.batches ++ [closedBatchOf s now],
           counters := { s.counters with nextBatchNo := s.counters.nextBatchNo + 1 },
           currentBatch := newBatchOf s now },
         closedBatchOf s now) := by
  simp only [closeBatch]
  rw [settle_foldl_char s hwf]
  rfl

theorem settleMark_batchId (cur : String) (t : Txn) :
    (settleMark cur t).batchId = t.batchId := by
  unfold settleMark
  split <;> rfl

theorem settleMark_of_unsettled (cur : String) (t : Txn)
    (h1 : t.status = TxnStatus.APPROVED ∨ t.status = TxnStatus.TIP_ADJUSTED)
    (h2 : t.batchId = cur) :
    settleMark cur t = { t with status := TxnStatus.SETTLED } := by
  unfold settleMark
  rw [if_pos (by rcases h1 with h1 | h1 <;> simp [h1, h2])]

/-- C2.  Immediately after CloseBatch: every transaction of the closed batch
whose status was APPROVED or TIP_ADJUSTED has status SETTLED and none is left
in those statuses (the settlement pass is one pure store update, hence
atomic); the closed batch is recorded with closeTime, settlementCount and
totalAmount and appended to batches; a new open batch with no transactions
exists; and Unsettled() is empty until the next transaction is added.  The
two side conditions hold of every store the emulator can reach (theorems
WfIds_runOps and freshBatch_runOps). -/
theorem C2_close_batch (s : Store) (now : Nat) (hwf : WfIds s)
    (hfresh : ∀ t ∈ s.transactions,
      t.batchId ≠ "B" ++ padStartZeros 4 (Nat.repr s.counters.nextBatchNo)) :
    (closeBatch s now).2.closeTime = some now ∧
    (closeBatch s now).2.isOpen = false ∧
    (closeBatch s now).2.settlementCount = some (getUnsettledTransactions s).length ∧
    (closeBatch s now).2.totalAmount = some ((getUnsettledTransactions s).foldl
      (fun a t => a + t.amounts.totalAmount.getD 0) 0) ∧
    (closeBatch s now).1.batches = s.batches ++ [(closeBatch s now).2] ∧
    (closeBatch s now).1.currentBatch.isOpen = true ∧
    (closeBatch s now).1.currentBatch.transactions = [] ∧
    (∀ t ∈ s.transactions,
      (t.status = TxnStatus.APPROVED ∨ t.status = TxnStatus.TIP_ADJUSTED) →
      t.batchId = s.currentBatch.id →
      ({ t with status := TxnStatus.SETTLED } : Txn) ∈ (closeBatch s now).1.transactions) ∧
    (∀ t ∈ (closeBatch s now).1.transactions, t.batchId = s.currentBatch.id →
      t.status ≠ TxnStatus.APPROVED ∧ t.status ≠ TxnStatus.TIP_ADJUSTED) ∧
    getUnsettledTransactions (closeBatch s now).1 = [] := by
  rw [closeBatch_char s now hwf]
  refine ⟨rfl, rfl, rfl, rfl, rfl, rfl, rfl, ?_, ?_, ?_⟩
  · intro t ht h1 h2
    have hmem := List.mem_map_of_mem (settleMark s.currentBatch.id) ht
    rw [settleMark_of_unsettled s.currentBatch.id t h1 h2] at hmem
    exact hmem
  · intro t ht hbatch
    obtain ⟨t0, ht0, rfl⟩ := List.mem_map.mp ht
    unfold settleMark
    by_cases hc : ((t0.status == TxnStatus.APPROVED || t0.status == TxnStatus.TIP_ADJUSTED) &&
        t0.batchId == s.currentBatch.id) = true
    · rw [if_pos hc]
      exact ⟨by simp, by simp⟩
    · rw [if_neg hc]
      rw [settleMark_batchId] at hbatch  -- hbatch about settleMark? careful
      constructor
      · intro hs
        exact hc (by simp [hs, hbatch])
      · intro hs
        exact hc (by simp [hs, hbatch])
  · unfold getUnsettledTransactions
    rw [List.filter_eq_nil_iff]
    intro t ht
    obtain ⟨t0, ht0, rfl⟩ := List.mem_map.mp ht
    have hb : (settleMark s.currentBatch.id t0).batchId = t0.batchId := settleMark_batchId _ _
    have hne := hfresh t0 ht0
    simp only [newBatchOf]
    simp [hb, hne]

/-- Witness for C2 at the concrete two-transaction store. -/
theorem C2_close_batch_witness :
    WfIds wStoreC2 ∧
    (∀ t ∈ wStoreC2.transactions,
      t.batchId ≠ "B" ++ padStartZeros 4 (Nat.repr wStoreC2.counters.nextBatchNo)) ∧
    getUnsettledTransactions (closeBatch wStoreC2 7).1 = [] :=
  ⟨by unfold WfIds; decide, by decide,
    (C2_close_batch wStoreC2 7 (by unfold WfIds; decide) (by decide)).2.2.2.2.2.2.2.2.2⟩

theorem updateTransaction_eq_map (s : Store) (hwf : WfIds s) (u : Txn)
    (hu : u ∈ s.transactions) (f : Txn → Txn) :
    updateTransaction s u.id f
      = { s with transactions :=
            s.transactions.map (fun t => if t.id = u.id then f t else t) } := by
  unfold updateTransaction
  rw [updFirst_eq_map u.id f s.transactions hwf.1 (wf_updMatches s hwf u hu)]

theorem findTransactionO_mem (s : Store) (o : Option JsVal) (t : Txn)
    (h : findTransactionO s o = some t) : t ∈ s.transactions := by
  cases o with
  | none => cases h
  | some v => exact List.mem_of_find?_eq_some h

/-- C7.  The Void command rejects with REF001 exactly when the target is not
found; given a found target, it rejects VOID001 exactly when the target is
already VOIDED, VOID002 exactly when it is SETTLED, VOID003 exactly for any
other status outside APPROVED and TIP_ADJUSTED; and on success the target's
status becomes VOIDED while exactly one new transaction is appended, of type
Void, status APPROVED, whose originalTransaction references the target.
The WfIds side condition holds of every reachable store (WfIds_runOps). -/
theorem C7_void_rules (s : Store) (ref tranNo : Option JsVal) (rand : Nat)
    (hwf : WfIds s) :
    ((handleVoid s ref tranNo rand).2 = VoidOutcome.ref001 ↔
      findTransactionO s (jsOr ref tranNo) = none) ∧
    (∀ t, findTransactionO s (jsOr ref tranNo) = some t →
      (((handleVoid s ref tranNo rand).2 = VoidOutcome.void001 ↔
          t.status = TxnStatus.VOIDED) ∧
       ((handleVoid s ref tranNo rand).2 = VoidOutcome.void002 ↔
          t.status = TxnStatus.SETTLED) ∧
       ((handleVoid s ref tranNo rand).2 = VoidOutcome.void003 ↔
          (t.status ≠ TxnStatus.VOIDED ∧ t.status ≠ TxnStatus.SETTLED ∧
           t.status ≠ TxnStatus.APPROVED ∧ t.status ≠ TxnStatus.TIP_ADJUSTED)) ∧
       ((t.status = TxnStatus.APPROVED ∨ t.status = TxnStatus.TIP_ADJUSTED) →
         ((handleVoid s ref tranNo rand).2 = VoidOutcome.voidOk t.id ∧
          ({ t with status := TxnStatus.VOIDED } : Txn)
              ∈ (handleVoid s ref tranNo rand).1.transactions ∧
          ∃ v, (handleVoid s ref tranNo rand).1.transactions
              = s.transactions.map
                  (fun u => if u.id = t.id then { u with status := TxnStatus.VOIDED } else u)
                ++ [v] ∧
            v.type = TxnType.Void ∧ v.originalTransaction = some t.id ∧
            v.status = TxnStatus.APPROVED)))) := by
  unfold handleVoid
  cases hfind : findTransactionO s (jsOr ref tranNo) with
  | none =>
    simp only [hfind]
    constructor
    · simp
    · intro t ht
      simp at ht
  | some t0 =>
    have hmem := findTransactionO_mem s (jsOr ref tranNo) t0 hfind
    simp only [hfind]
    constructor
    · split_ifs <;> simp
    · intro t ht
      obtain rfl : t0 = t := by simpa using ht
      split_ifs with h1 h2 h3
      · -- already VOIDED
        refine ⟨by simp [h1], by simp [h1], ?_, ?_⟩
        · constructor
          · intro hc; simp at hc
          · intro ⟨hc, _⟩; exact absurd h1 hc
        · intro hs
          rcases hs with hs | hs <;> rw [hs] at h1 <;> simp at h1
      · -- SETTLED
        refine ⟨by simp [h2], by simp [h2], ?_, ?_⟩
        · constructor
          · intro hc; simp at hc
          · intro ⟨_, hc, _⟩; exact absurd h2 hc
        · intro hs
          rcases hs with hs | hs <;> rw [hs] at h2 <;> simp at h2
      · -- success: status APPROVED or TIP_ADJUSTED
        refine ⟨?_, ?_, ?_, ?_⟩
        · constructor
          · intro hc; simp at hc
          · intro hc
            rcases h3 with h3 | h3 <;> rw [h3] at hc <;> simp at hc
        · constructor
          · intro hc; simp at hc
          · intro hc
            rcases h3 with h3 | h3 <;> rw [h3] at hc <;> simp at hc
        · constructor
          · intro hc; simp at hc
          · intro ⟨_, _, hcA, hcT⟩
            rcases h3 with h3 | h3
            · exact absurd h3 hcA
            · exact absurd h3 hcT
        · intro _
          rw [updateTransaction_eq_map s hwf t0 hmem
            (fun u => { u with status := TxnStatus.VOIDED })]
          refine ⟨rfl, ?_, ?_⟩
          · rw [addTransaction]
            simp only [List.mem_append]
            left
            have hmm := List.mem_map_of_mem
              (fun u => if u.id = t0.id then ({ u with status := TxnStatus.VOIDED } : Txn) else u)
              hmem
            simpa using hmm
          · refine ⟨_, rfl, rfl, rfl, rfl⟩
      · -- any other status
        refine ⟨by simp [h1], by simp [h2], ?_, fun hs => absurd hs h3⟩
        constructor
        · intro _
          exact ⟨h1, h2, fun hc => h3 (Or.inl hc), fun hc => h3 (Or.inr hc)⟩
        · intro _; rfl

/-- Witness for C7: voiding the APPROVED sale by tranNo succeeds with a
voidOk referencing it. -/
theorem C7_void_rules_witness :
    WfIds wStoreC2 ∧
    (handleVoid wStoreC2 none (some (JsVal.str "0001")) 5).2
      = VoidOutcome.voidOk wTxn1.id :=
  ⟨by unfold WfIds; decide,
    (((C7_void_rules wStoreC2 none (some (JsVal.str "0001")) 5
        (by unfold WfIds; decide)).2 wTxn1 (by decide)).2.2.2 (Or.inl rfl)).1⟩

/-- C8 counterexample.  findTransaction resolves by ARRAY order, not by field
precedence: the store holds an early transaction matching the identifier X
only on referenceNumber and a later transaction whose id IS X, and the lookup
returns the early one - the claim would require the id match to win. -/
theorem C8_counterexample :
    findTransaction c8Store (JsVal.str "X") = some c8Txn1 ∧
    c8Txn1.id ≠ "X" ∧ c8Txn1.referenceNumber = "X" ∧
    c8Txn2 ∈ c8Store.transactions ∧ c8Txn2.id = "X" := by
  refine ⟨by decide, by decide, by decide, by decide, by decide⟩

theorem find?_first_char (p : Txn → Bool) :
    ∀ (l : List Txn) (t : Txn), l.find? p = some t →
      ∃ pre post, l = pre ++ t :: post ∧ p t = true ∧ ∀ u ∈ pre, p u = false := by
  intro l
  induction l with
  | nil => intro t h; cases h
  | cons x xs ih =>
    intro t h
    cases hp : p x with
    | true =>
      rw [List.find?_cons_of_pos _ hp] at h
      obtain rfl : x = t := by simpa using h
      exact ⟨[], xs, rfl, hp, by simp⟩
    | false =>
      rw [List.find?_cons_of_neg _ (by simp [hp])] at h
      obtain ⟨pre, post, hl, hpt, hpre⟩ := ih t h
      refine ⟨x :: pre, post, by rw [hl]; rfl, hpt, ?_⟩
      intro u hu
      rcases List.mem_cons.mp hu with rfl | hu
      · exact hp
      · exact hpre u hu

/-- C8 amended.  The lookup has no field precedence: findTransaction returns
the FIRST transaction in store (insertion) order matching the identifier on
ANY of id, tranNo, referenceNumber or responseId, and finds none exactly when
no transaction matches any field; the update lookup consults only id, tranNo
and referenceNumber (never responseId), leaving the store unchanged whenever
those three fields match nothing. -/
theorem C8_lookup_first_match (s : Store) (idf : JsVal) (t : Txn) :
    (findTransaction s idf = some t →
      ∃ pre post, s.transactions = pre ++ t :: post ∧ findMatches idf t = true ∧
        ∀ u ∈ pre, findMatches idf u = false) ∧
    (findTransaction s idf = none ↔ ∀ u ∈ s.transactions, findMatches idf u = false) ∧
    (∀ f : Txn → Txn, (∀ u ∈ s.transactions, updMatches (jsToString idf) u = false) →
      updateTransaction s (jsToString idf) f = s) := by
  refine ⟨?_, ?_, ?_⟩
  · intro h
    exact find?_first_char (findMatches idf) s.transactions t h
  · unfold findTransaction
    rw [List.find?_eq_none]
    constructor
    · intro h u hu
      simpa using h u hu
    · intro h u hu
      simp [h u hu]
  · intro f h
    unfold updateTransaction
    rw [updFirst_no_match _ f s.transactions h]

/-- Witness for C8 amended: the first-match characterization at the
counterexample store, and an update keyed on a string matching nothing. -/
theorem C8_lookup_first_match_witness :
    (∃ pre post, c8Store.transactions = pre ++ c8Txn1 :: post ∧
      findMatches (JsVal.str "X") c8Txn1 = true ∧
      ∀ u ∈ pre, findMatches (JsVal.str "X") u = false) ∧
    updateTransaction c8Store (jsToString (JsVal.str "Z")) (fun t => t) = c8Store :=
  ⟨(C8_lookup_first_match c8Store (JsVal.str "X") c8Txn1).1 (by decide),
   (C8_lookup_first_match c8Store (JsVal.str "Z") c8Txn1).2.2 (fun t => t) (by decide)⟩

/-! ### Identifier-uniqueness invariant lemmas -/

theorem mem_updFirst (p : Txn → Bool) (f : Txn → Txn) :
    ∀ (ts : List Txn) (t' : Txn), t' ∈ updFirst p f ts →
      ∃ t ∈ ts, t' = t ∨ t' = f t := by
  intro ts
  induction ts with
  | nil => intro t' h; cases h
  | cons x xs ih =>
    intro t' h
    unfold updFirst at h
    split at h
    · rcases List.mem_cons.mp h with rfl | h
      · exact ⟨x, by simp, Or.inr rfl⟩
      · exact ⟨t', List.mem_cons_of_mem _ h, Or.inl rfl⟩
    · rcases List.mem_cons.mp h with rfl | h
      · exact ⟨t', by simp, Or.inl rfl⟩
      · obtain ⟨t, ht, hor⟩ := ih t' h
        exact ⟨t, List.mem_cons_of_mem _ ht, hor⟩

theorem C3Inv_update (s : Store) (idf : String) (f : Txn → Txn)
    (hf1 : ∀ t, (f t).tranNo = t.tranNo)
    (hf2 : ∀ t, (f t).referenceNumber = t.referenceNumber)
    (h : C3Inv s) : C3Inv (updateTransaction s idf f) := by
  obtain ⟨hbound, hn1, hn2⟩ := h
  refine ⟨?_, ?_, ?_⟩
  · intro t' ht'
    obtain ⟨t, ht, hor⟩ := mem_updFirst _ f s.transactions t' ht'
    have hb := hbound t ht
    rcases hor with rfl | rfl
    · exact hb
    · exact ⟨by rw [hf1 t]; exact hb.1, by rw [hf2 t]; exact hb.2⟩
  · rw [show (updateTransaction s idf f).transactions.map (·.tranNo)
        = s.transactions.map (·.tranNo) from updFirst_map_field _ f _ hf1 s.transactions]
    exact hn1
  · rw [show (updateTransaction s idf f).transactions.map (·.referenceNumber)
        = s.transactions.map (·.referenceNumber) from updFirst_map_field _ f _ hf2 s.transactions]
    exact hn2

theorem C3Inv_settle_foldl (us : List Txn) :
    ∀ s : Store, C3Inv s →
      C3Inv (us.foldl (fun acc t => updateTransaction acc t.id
        (fun u => { u with status := TxnStatus.SETTLED })) s) := by
  induction us with
  | nil => intro s h; exact h
  | cons u us ih =>
    intro s h
    simp only [List.foldl_cons]
    exact ih _ (C3Inv_update s u.id _ (fun t => rfl) (fun t => rfl) h)

theorem C3Inv_counters_mono (s : Store) (c' : Counters) (h : C3Inv s)
    (h1 : s.counters.nextTranNo ≤ c'.nextTranNo)
    (h2 : s.counters.nextRefNo ≤ c'.nextRefNo) :
    C3Inv { s with counters := c' } := by
  obtain ⟨hbound, hn1, hn2⟩ := h
  refine ⟨?_, hn1, hn2⟩
  intro t ht
  obtain ⟨⟨c1, hc1, he1⟩, ⟨c2, hc2, he2⟩⟩ := hbound t ht
  exact ⟨⟨c1, by simp only []; omega, he1⟩, ⟨c2, by simp only []; omega, he2⟩⟩

theorem C3Inv_addFresh (s : Store) (txn : Txn) (rand : Nat) (h : C3Inv s)
    (ht : txn.tranNo = padStartZeros 4 (Nat.repr s.counters.nextTranNo))
    (hr : txn.referenceNumber = Nat.repr s.counters.nextRefNo) :
    C3Inv (addTransaction { s with counters := (generateIds s.counters rand).2 } txn) := by
  obtain ⟨hbound, hn1, hn2⟩ := h
  unfold addTransaction generateIds
  refine ⟨?_, ?_, ?_⟩
  · intro t' ht'
    rcases List.mem_append.mp ht' with hmem | hmem
    · obtain ⟨⟨c1, hc1, he1⟩, ⟨c2, hc2, he2⟩⟩ := hbound t' hmem
      exact ⟨⟨c1, by simp; omega, he1⟩, ⟨c2, by simp; omega, he2⟩⟩
    · have heq := List.mem_singleton.mp hmem
      subst heq
      refine ⟨⟨s.counters.nextTranNo, by simp, ht⟩,
              ⟨s.counters.nextRefNo, by simp, hr⟩⟩
  · rw [List.map_append]
    simp only [List.map_cons, List.map_nil]
    rw [List.nodup_append]
    refine ⟨hn1, by simp, ?_⟩
    intro a ha hb
    have ha' : a = txn.tranNo := by simpa using hb
    obtain ⟨t, htmem, hteq⟩ := List.mem_map.mp ha
    obtain ⟨⟨c1, hc1, he1⟩, _⟩ := hbound t htmem
    rw [ht] at ha'
    rw [ha', he1] at hteq
    have := padStartZeros_repr_injective 4 _ _ hteq
    omega
  · rw [List.map_append]
    simp only [List.map_cons, List.map_nil]
    rw [List.nodup_append]
    refine ⟨hn2, by simp, ?_⟩
    intro a ha hb
    have ha' : a = txn.referenceNumber := by simpa using hb
    obtain ⟨t, htmem, hteq⟩ := List.mem_map.mp ha
    obtain ⟨_, ⟨c2, hc2, he2⟩⟩ := hbound t htmem
    rw [hr] at ha'
    rw [ha', he2] at hteq
    have := repr_injective hteq
    omega

theorem C3Inv_applyOp (s : Store) (op : EmuOp) (h : C3Inv s) :
    C3Inv (applyOp s op) := by
  cases op with
  | sale req rand =>
    simp only [applyOp, handleSale]
    repeat' split
    all_goals first
      | exact h
      | exact C3Inv_addFresh s _ rand h rfl rfl
  | preAuth amount baseAmount rand =>
    simp only [applyOp, handlePreAuth]
    repeat' split
    all_goals first
      | exact h
      | exact C3Inv_addFresh s _ rand h rfl rfl
  | refund totalAmount amount ref rand =>
    simp only [applyOp, handleRefund]
    repeat' split
    all_goals first
      | exact h
      | exact C3Inv_addFresh s _ rand h rfl rfl
  | void ref tranNo rand =>
    simp only [applyOp, handleVoid]
    repeat' split
    all_goals first
      | exact h
      | exact C3Inv_addFresh _ _ rand
          (C3Inv_update s _ _ (fun t => rfl) (fun t => rfl) h) rfl rfl
  | tipAdjust ref tranNo rand =>
    simp only [applyOp, handleTipAdjust]
    repeat' split
    all_goals first
      | exact h
      | exact C3Inv_counters_mono _ _
          (C3Inv_update s _ _ (fun t => rfl) (fun t => rfl) h)
          (by simp [generateIds]) (by simp [generateIds])
  | batchClose now =>
    simp only [applyOp, closeBatch]
    apply C3Inv_counters_mono
    · exact C3Inv_settle_foldl (getUnsettledTransactions s) s h
    · simp [openNewBatch]
    · simp [openNewBatch]

theorem C3Inv_initial (now : Nat) : C3Inv (initialStore now) := by
  refine ⟨?_, ?_, ?_⟩ <;> simp [initialStore, openNewBatch]

theorem C3Inv_runOps (now : Nat) (ops : List EmuOp) : C3Inv (runOps now ops) := by
  unfold runOps
  have hgen : ∀ s, C3Inv s → C3Inv (ops.foldl applyOp s) := by
    induction ops with
    | nil => intro s h; exact h
    | cons op rest ih => intro s h; exact ih _ (C3Inv_applyOp s op h)
  exact hgen _ (C3Inv_initial now)

/-- C3 counterexample.  responseId is nextRefNo plus a random 0..999 offset
(generateIds line 234), so two consecutive Sales whose draws are 1 and 0
store the SAME responseId 200000000002: responseId values are not pairwise
unique across the persisted store. -/
theorem C3_counterexample :
    ((runOps 0 [EmuOp.sale c3SaleReqA 1, EmuOp.sale c3SaleReqA 0]).transactions.map
        (·.responseId)) = [200000000002, 200000000002] ∧
    ¬ ((runOps 0 [EmuOp.sale c3SaleReqA 1, EmuOp.sale c3SaleReqA 0]).transactions.map
        (·.responseId)).Nodup ∧
    (1 : Nat) < 1000 ∧ (0 : Nat) < 1000 := by
  refine ⟨by decide, by decide, by decide, by decide⟩

/-- C3 amended.  For any sequence of emulator operations (Sale, PreAuth,
Refund, Void, TipAdjust, batch close) starting from the initial store, the
tranNo values and the referenceNumber values of the stored transactions are
each pairwise unique (they come from monotonically increasing counters);
responseId carries no such guarantee. -/
theorem C3_tranNo_refNo_unique (now : Nat) (ops : List EmuOp) :
    ((runOps now ops).transactions.map (·.tranNo)).Nodup ∧
    ((runOps now ops).transactions.map (·.referenceNumber)).Nodup :=
  ⟨(C3Inv_runOps now ops).2.1, (C3Inv_runOps now ops).2.2⟩

theorem handleSale_char (s : Store) (req : SaleReq) (rand : Nat)
    (hb : 0 < saleBaseOf req) :
    handleSale s req rand
      = (addTransaction { s with counters := (generateIds s.counters rand).2 }
          { id := ""
            batchId := ""
            tranNo := (generateIds s.counters rand).1.tranNo
            referenceNumber := (generateIds s.counters rand).1.referenceNumber
            responseId := (generateIds s.counters rand).1.responseId
            type := TxnType.Sale
            status := (saleDecision (saleTotalOf req) req.pan).status
            amounts :=
              { baseAmount := some (saleBaseOf req)
                tipAmount := some (req.tipAmount.getD 0)
                taxAmount := some (req.taxAmount.getD 0)
                cashbackAmount := some (req.cashbackAmount.getD 0)
                totalAmount := some (saleTotalOf req)
                authorizedAmount := some (saleDecision (saleTotalOf req) req.pan).authorized }
            originalTransaction := none
            partialApproval := (saleDecision (saleTotalOf req) req.pan).partialApproval
            declineReason := (saleDecision (saleTotalOf req) req.pan).declineReason },
         if (saleDecision (saleTotalOf req) req.pan).status = TxnStatus.DECLINED
         then SaleOutcome.declinedRsp
           ((saleDecision (saleTotalOf req) req.pan).declineReason.getD "")
         else SaleOutcome.approvedRsp
           (saleDecision (saleTotalOf req) req.pan).partialApproval
           (saleDecision (saleTotalOf req) req.pan).authorized
           (if (saleDecision (saleTotalOf req) req.pan).partialApproval
            then some (saleTotalOf req - (saleDecision (saleTotalOf req) req.pan).authorized)
            else none)) := by
  have hb2 : ¬ ((match req.baseAmount with
      | some v => v
      | none => req.amount.getD 0) ≤ 0) := not_le.mpr hb
  simp only [handleSale]
  rw [if_neg hb2]
  rw [show ((match req.baseAmount with
      | some v => v
      | none => req.amount.getD 0) + req.tipAmount.getD 0 + req.taxAmount.getD 0 +
      req.cashbackAmount.getD 0 : Int) = saleTotalOf req from rfl]
  rw [show ((match req.baseAmount with
      | some v => v
      | none => req.amount.getD 0 : Int)) = saleBaseOf req from rfl]
  split_ifs with hd <;> rfl

theorem saleDecision_window (total : Int) (pan : String)
    (h1 : 15500 ≤ total) (h2 : total < 20000) :
    saleDecision total pan
      = { status := TxnStatus.APPROVED, partialApproval := true, authorized := 10000,
          declineReason := none } := by
  unfold saleDecision
  rw [if_pos ⟨h1, h2⟩]

theorem saleDecision_high (total : Int) (pan : String) (h : 50000 ≤ total) :
    saleDecision total pan
      = { status := TxnStatus.DECLINED, partialApproval := false, authorized := total,
          declineReason := some "AMOUNT TOO HIGH" } := by
  unfold saleDecision
  rw [if_neg (by omega), if_pos h]

theorem saleDecision_card (total : Int) (pan : String)
    (hp : jsEndsWith pan "0001" = true) (h50 : total < 50000)
    (hw : total < 15500 ∨ 20000 ≤ total) :
    saleDecision total pan
      = { status := TxnStatus.DECLINED, partialApproval := false, authorized := total,
          declineReason := some "CARD DECLINED" } := by
  unfold saleDecision
  rw [if_neg (by omega), if_neg (by omega), if_pos hp]

/-- C1 counterexample.  A Sale whose card PAN ends in 0001 but whose total
(160.00) lies in the partial window is APPROVED as a partial approval, not
DECLINED with CARD DECLINED: the decline rules are an ordered else-if chain
and the partial window is tested first. -/
theorem C1_counterexample :
    (handleSale (initialStore 0) c1ReqPan0001 0).2
      = SaleOutcome.approvedRsp true 10000 (some 6000) ∧
    (∃ t ∈ (handleSale (initialStore 0) c1ReqPan0001 0).1.transactions,
      t.status = TxnStatus.APPROVED ∧ t.partialApproval = true ∧
      t.declineReason = none) ∧
    jsEndsWith c1ReqPan0001.pan "0001" = true := by
  refine ⟨by decide, by decide, by decide⟩

/-- C1 amended.  For a Sale with positive base amount the rules are applied
as an ordered chain: a total in [155.00, 200.00) is approved as PARTIAL with
authorizedAmount 100.00 and balanceDue total - 100.00 regardless of the PAN;
otherwise a total of at least 500.00 is DECLINED with AMOUNT TOO HIGH; only
otherwise does a PAN ending in 0001 produce DECLINED with CARD DECLINED.
The stored transaction always carries the decision's status, decline reason,
partial flag and authorized amount. -/
theorem C1_sale_rules (s : Store) (req : SaleReq) (rand : Nat)
    (hbase : 0 < saleBaseOf req) :
    (∃ t, (handleSale s req rand).1.transactions = s.transactions ++ [t] ∧
      t.status = (saleDecision (saleTotalOf req) req.pan).status ∧
      t.declineReason = (saleDecision (saleTotalOf req) req.pan).declineReason ∧
      t.partialApproval = (saleDecision (saleTotalOf req) req.pan).partialApproval ∧
      t.amounts.totalAmount = some (saleTotalOf req) ∧
      t.amounts.authorizedAmount
        = some (saleDecision (saleTotalOf req) req.pan).authorized) ∧
    (15500 ≤ saleTotalOf req ∧ saleTotalOf req < 20000 →
      (handleSale s req rand).2
        = SaleOutcome.approvedRsp true 10000 (some (saleTotalOf req - 10000))) ∧
    (50000 ≤ saleTotalOf req →
      (handleSale s req rand).2 = SaleOutcome.declinedRsp "AMOUNT TOO HIGH") ∧
    (jsEndsWith req.pan "0001" = true → saleTotalOf req < 50000 →
      (saleTotalOf req < 15500 ∨ 20000 ≤ saleTotalOf req) →
      (handleSale s req rand).2 = SaleOutcome.declinedRsp "CARD DECLINED") := by
  rw [handleSale_char s req rand hbase]
  refine ⟨?_, ?_, ?_, ?_⟩
  · refine ⟨_, rfl, rfl, rfl, rfl, rfl, rfl⟩
  · intro ⟨h1, h2⟩
    rw [saleDecision_window (saleTotalOf req) req.pan h1 h2]
    rfl
  · intro h
    rw [saleDecision_high (saleTotalOf req) req.pan h]
    rfl
  · intro hp h50 hw
    rw [saleDecision_card (saleTotalOf req) req.pan hp h50 hw]
    rfl

/-- Witness for C1 amended at a concrete over-limit Sale (total 600.00). -/
theorem C1_sale_rules_witness :
    (0 : Int) < saleBaseOf
      { baseAmount := some 60000, amount := none, tipAmount := none,
        taxAmount := none, cashbackAmount := none, pan := "4761739001010010" } ∧
    (handleSale (initialStore 0)
      { baseAmount := some 60000, amount := none, tipAmount := none,
        taxAmount := none, cashbackAmount := none, pan := "4761739001010010" } 0).2
      = SaleOutcome.declinedRsp "AMOUNT TOO HIGH" :=
  ⟨by decide,
    (C1_sale_rules (initialStore 0)
      { baseAmount := some 60000, amount := none, tipAmount := none,
        taxAmount := none, cashbackAmount := none, pan := "4761739001010010" } 0
      (by decide)).2.2.1 (by decide)⟩

/-! ### Reachable stores satisfy the identifier well-formedness conditions -/

theorem string_append_left_cancel (p x y : String) (h : p ++ x = p ++ y) : x = y := by
  apply String.ext
  have h2 := congrArg String.data h
  rw [String.data_append, String.data_append] at h2
  exact List.append_cancel_left h2

theorem padPrefix_injective (w : Nat) (p : String) (m n : Nat)
    (h : p ++ padStartZeros w (Nat.repr m) = p ++ padStartZeros w (Nat.repr n)) : m = n :=
  padStartZeros_repr_injective w m n (string_append_left_cancel _ _ _ h)

theorem digitsRec_head_digit (n : Nat) :
    ∀ c, (digitsRec n).head? = some c → ∃ m, m < 10 ∧ c = Nat.digitChar m := by
  induction n using Nat.strong_induction_on with
  | _ n ih =>
    intro c hc
    by_cases h10 : n < 10
    · rw [digitsRec_of_lt n h10] at hc
      simp at hc
      exact ⟨n, h10, hc.symm⟩
    · rw [digitsRec_of_ge n h10] at hc
      cases hds : digitsRec (n / 10) with
      | nil => exact absurd hds (digitsRec_ne_nil _)
      | cons d ds =>
        rw [hds] at hc
        simp at hc
        have hd : n / 10 < n := Nat.div_lt_self (by omega) (by omega)
        exact ih (n / 10) hd c (by rw [hds, List.head?_cons, hc])

theorem digitChar_ne_T (m : Nat) (h : m < 10) : Nat.digitChar m ≠ 'T' := by
  interval_cases m <;> decide

theorem padStartZeros_data (w : Nat) (s : String) :
    (padStartZeros w s).data = List.replicate (w - s.data.length) '0' ++ s.data := rfl

theorem padRepr_head_ne_T (w n : Nat) :
    ∀ c, (padStartZeros w (Nat.repr n)).data.head? = some c → c ≠ 'T' := by
  intro c hc
  rw [padStartZeros_data] at hc
  cases hk : w - (Nat.repr n).data.length with
  | zero =>
    rw [hk] at hc
    simp only [List.replicate, List.nil_append] at hc
    rw [repr_data] at hc
    obtain ⟨m, hm, rfl⟩ := digitsRec_head_digit n c hc
    exact digitChar_ne_T m hm
  | succ k =>
    rw [hk, List.replicate_succ] at hc
    simp at hc
    rw [← hc]
    decide

theorem txnId_head (x : String) : ("TXN" ++ x).data.head? = some 'T' := by
  rw [String.data_append]
  rfl

theorem pad_ne_txnId (w n : Nat) (x : String) :
    padStartZeros w (Nat.repr n) ≠ "TXN" ++ x := by
  intro h
  have hd := congrArg (fun s => s.data.head?) h
  simp only [] at hd
  rw [txnId_head] at hd
  cases hdata : (padStartZeros w (Nat.repr n)).data with
  | nil =>
    rw [padStartZeros_data] at hdata
    have := List.append_eq_nil.mp hdata
    exact digitsRec_ne_nil n (by rw [← repr_data]; exact this.2)
  | cons c0 rest =>
    rw [hdata] at hd
    simp at hd
    exact padRepr_head_ne_T w n c0 (by rw [hdata, List.head?_cons]) hd

theorem padStartZeros_zero (s : String) : padStartZeros 0 s = s := by
  apply String.ext
  rw [padStartZeros_data]
  simp

theorem updFirst_length (p : Txn → Bool) (f : Txn → Txn) :
    ∀ ts : List Txn, (updFirst p f ts).length = ts.length := by
  intro ts
  induction ts with
  | nil => rfl
  | cons t ts ih =>
    unfold updFirst
    split <;> simp [ih]

theorem EmuInv_update (s : Store) (idf : String) (f : Txn → Txn)
    (hfid : ∀ t, (f t).id = t.id) (hfb : ∀ t, (f t).batchId = t.batchId)
    (h : EmuInv s) : EmuInv (updateTransaction s idf f) := by
  obtain ⟨hb, hnodup, hcur⟩ := h
  refine ⟨?_, ?_, hcur⟩
  · intro t' ht'
    obtain ⟨t, ht, hor⟩ := mem_updFirst _ f s.transactions t' ht'
    obtain ⟨⟨c1, hc1a, hc1b, hc1e⟩, ⟨c2, hc2a, hc2e⟩⟩ := hb t ht
    have hlen : (updateTransaction s idf f).transactions.length
        = s.transactions.length := updFirst_length _ f s.transactions
    rcases hor with rfl | rfl
    · exact ⟨⟨c1, hc1a, by rw [hlen]; exact hc1b, hc1e⟩, ⟨c2, hc2a, hc2e⟩⟩
    · exact ⟨⟨c1, hc1a, by rw [hlen]; exact hc1b, by rw [hfid t]; exact hc1e⟩,
            ⟨c2, hc2a, by rw [hfb t]; exact hc2e⟩⟩
  · rw [show (updateTransaction s idf f).transactions.map (·.id)
        = s.transactions.map (·.id) from updFirst_map_field _ f _ hfid s.transactions]
    exact hnodup

theorem EmuInv_settle_foldl (us : List Txn) :
    ∀ s : Store, EmuInv s →
      EmuInv (us.foldl (fun acc t => updateTransaction acc t.id
        (fun u => { u with status := TxnStatus.SETTLED })) s) := by
  induction us with
  | nil => intro s h; exact h
  | cons u us ih =>
    intro s h
    simp only [List.foldl_cons]
    exact ih _ (EmuInv_update s u.id _ (fun t => rfl) (fun t => rfl) h)

theorem EmuInv_addFresh (s : Store) (txn : Txn) (rand : Nat) (h : EmuInv s) :
    EmuInv (addTransaction { s with counters := (generateIds s.counters rand).2 } txn) := by
  obtain ⟨hb, hnodup, hcur⟩ := h
  unfold addTransaction
  refine ⟨?_, ?_, ?_⟩
  · intro t' ht'
    rcases List.mem_append.mp ht' with hmem | hmem
    · obtain ⟨⟨c1, hc1a, hc1b, hc1e⟩, ⟨c2, hc2a, hc2e⟩⟩ := hb t' hmem
      refine ⟨⟨c1, hc1a, by simp; omega, hc1e⟩, ⟨c2, by simpa using hc2a, hc2e⟩⟩
    · have heq := List.mem_singleton.mp hmem
      subst heq
      obtain ⟨c, hclt, hce⟩ := hcur
      refine ⟨⟨s.transactions.length + 1, by omega, by simp, rfl⟩,
              ⟨c, by simpa using hclt, hce⟩⟩
  · rw [List.map_append]
    simp only [List.map_cons, List.map_nil]
    rw [List.nodup_append]
    refine ⟨hnodup, by simp, ?_⟩
    intro a ha hb2
    have ha' : a = "TXN" ++ padStartZeros 8 (Nat.repr (s.transactions.length + 1)) := by
      simpa using hb2
    obtain ⟨t, htmem, hteq⟩ := List.mem_map.mp ha
    obtain ⟨⟨c1, hc1a, hc1b, hc1e⟩, _⟩ := hb t htmem
    rw [ha', hc1e] at hteq
    have := padPrefix_injective 8 "TXN" c1 (s.transactions.length + 1) hteq
    omega
  · simpa using hcur

theorem EmuInv_counters_bump (s : Store) (rand : Nat) (h : EmuInv s) :
    EmuInv { s with counters := (generateIds s.counters rand).2 } := by
  obtain ⟨hb, hnodup, hcur⟩ := h
  refine ⟨?_, hnodup, by simpa using hcur⟩
  intro t ht
  obtain ⟨⟨c1, hc1a, hc1b, hc1e⟩, ⟨c2, hc2a, hc2e⟩⟩ := hb t ht
  exact ⟨⟨c1, hc1a, hc1b, hc1e⟩, ⟨c2, by simpa using hc2a, hc2e⟩⟩

theorem EmuInv_closeBatch (s : Store) (now : Nat) (h : EmuInv s) :
    EmuInv (closeBatch s now).1 := by
  simp only [closeBatch]
  have h1 := EmuInv_settle_foldl (getUnsettledTransactions s) s h
  obtain ⟨hb, hnodup, hcur⟩ := h1
  refine ⟨?_, hnodup, ?_⟩
  · intro t ht
    obtain ⟨⟨c1, hc1a, hc1b, hc1e⟩, ⟨c2, hc2a, hc2e⟩⟩ := hb t ht
    refine ⟨⟨c1, hc1a, hc1b, hc1e⟩, ⟨c2, by simp [openNewBatch]; omega, hc2e⟩⟩
  · refine ⟨_, ?_, rfl⟩
    simp [openNewBatch]

theorem EmuInv_applyOp (s : Store) (op : EmuOp) (h : EmuInv s) :
    EmuInv (applyOp s op) := by
  cases op with
  | sale req rand =>
    simp only [applyOp, handleSale]
    repeat' split
    all_goals first
      | exact h
      | exact EmuInv_addFresh s _ rand h
  | preAuth amount baseAmount rand =>
    simp only [applyOp, handlePreAuth]
    repeat' split
    all_goals first
      | exact h
      | exact EmuInv_addFresh s _ rand h
  | refund totalAmount amount ref rand =>
    simp only [applyOp, handleRefund]
    repeat' split
    all_goals first
      | exact h
      | exact EmuInv_addFresh s _ rand h
  | void ref tranNo rand =>
    simp only [applyOp, handleVoid]
    repeat' split
    all_goals first
      | exact h
      | exact EmuInv_addFresh _ _ rand
          (EmuInv_update s _ _ (fun t => rfl) (fun t => rfl) h)
  | tipAdjust ref tranNo rand =>
    simp only [applyOp, handleTipAdjust]
    repeat' split
    all_goals first
      | exact h
      | exact EmuInv_counters_bump _ rand
          (EmuInv_update s _ _ (fun t => rfl) (fun t => rfl) h)
  | batchClose now => exact EmuInv_closeBatch s now h

theorem EmuInv_initial (now : Nat) : EmuInv (initialStore now) := by
  refine ⟨by simp [initialStore, openNewBatch], by simp [initialStore, openNewBatch], ?_⟩
  exact ⟨1, by simp [initialStore, openNewBatch], rfl⟩

theorem EmuInv_runOps (now : Nat) (ops : List EmuOp) : EmuInv (runOps now ops) := by
  unfold runOps
  have hgen : ∀ s, EmuInv s → EmuInv (ops.foldl applyOp s) := by
    induction ops with
    | nil => intro s h; exact h
    | cons op rest ih => intro s h; exact ih _ (EmuInv_applyOp s op h)
  exact hgen _ (EmuInv_initial now)

/-- Every store the emulator can reach satisfies the well-formedness side
condition WfIds assumed by the batch-close and void theorems. -/
theorem WfIds_runOps (now : Nat) (ops : List EmuOp) : WfIds (runOps now ops) := by
  obtain ⟨hb, hnodup, _⟩ := EmuInv_runOps now ops
  obtain ⟨hc3, _, _⟩ := C3Inv_runOps now ops
  refine ⟨hnodup, ?_⟩
  intro t ht u hu
  obtain ⟨⟨ci, _, _, hid⟩, _⟩ := hb u hu
  obtain ⟨⟨c1, _, htr⟩, ⟨c2, _, href⟩⟩ := hc3 t ht
  constructor
  · rw [htr, hid]
    exact pad_ne_txnId 4 c1 _
  · rw [href, hid]
    rw [show Nat.repr c2 = padStartZeros 0 (Nat.repr c2) from
      (padStartZeros_zero (Nat.repr c2)).symm]
    exact pad_ne_txnId 0 c2 _

/-- Every store the emulator can reach satisfies the batch-freshness side
condition assumed by the batch-close theorem: no stored transaction already
carries the id the NEXT batch will get. -/
theorem freshBatch_runOps (now : Nat) (ops : List EmuOp) :
    ∀ t ∈ (runOps now ops).transactions,
      t.batchId ≠ "B" ++ padStartZeros 4 (Nat.repr (runOps now ops).counters.nextBatchNo) := by
  obtain ⟨hb, _, _⟩ := EmuInv_runOps now ops
  intro t ht hc
  obtain ⟨_, ⟨c, hlt, hbid⟩⟩ := hb t ht
  rw [hbid] at hc
  have := padPrefix_injective 4 "B" c _ hc
  omega
